import Mathlib

/-!
Verification development for the study-planner backend.

The JavaScript sources are shallowly embedded as executable Lean
definitions.  JSON task / plan / user objects become structures whose
string-valued fields use `""` for a missing (undefined) field, matching
the JavaScript truthiness checks in the source (`task.id || gen`,
`!task[field]`, `plan.level || plan.skill || 'General'`).  The wall
clock (`new Date()`), random id generation, the Gemini network call and
`JSON.parse` are inputs of the model: they appear as explicit
parameters.  String primitives (`<`, `includes`, `toLowerCase`,
`trim`, `indexOf`, `substring`) are re-implemented over `List Char`
so that every definition evaluates inside the kernel.
-/

namespace StudyPlanner

/-! ## String primitives (models of the JavaScript string operations) -/

/-- Lexicographic comparison of character lists by code point, the
comparison JavaScript applies to `a < b` on strings (identical on the
ASCII date strings and subject names used by the program). -/
def lexLt : List Char → List Char → Bool
  | [], [] => false
  | [], _ :: _ => true
  | _ :: _, [] => false
  | a :: as, b :: bs =>
    if a.toNat < b.toNat then true
    else if b.toNat < a.toNat then false
    else lexLt as bs

/-- JavaScript `a < b` on strings. -/
def strLtB (a b : String) : Bool := lexLt a.data b.data

/-- JavaScript `a <= b` on strings (total order, so `a <= b ↔ ¬ b < a`). -/
def strLeB (a b : String) : Bool := !(lexLt b.data a.data)

/-- JavaScript `a >= b` on strings. -/
def strGeB (a b : String) : Bool := strLeB b a

/-- Does the pattern occur as a leading segment of the list? -/
def hasPfx : List Char → List Char → Bool
  | [], _ => true
  | _ :: _, [] => false
  | p :: ps, c :: cs => p == c && hasPfx ps cs

/-- Substring occurrence on character lists; the empty pattern occurs
in every string, as in JavaScript `String.prototype.includes`. -/
def inclL (sub : List Char) : List Char → Bool
  | [] => sub.isEmpty
  | c :: cs => hasPfx sub (c :: cs) || inclL sub cs

/-- JavaScript `s.includes(sub)`. -/
def jsIncludes (s sub : String) : Bool := inclL sub.data s.data

/-- ASCII lower-casing of one character (model of the `toLowerCase`
behaviour on the ASCII subject strings handled by the program). -/
def lowCh (c : Char) : Char :=
  if 65 ≤ c.toNat && c.toNat ≤ 90 then Char.ofNat (c.toNat + 32) else c

/-- JavaScript `s.toLowerCase()` restricted to ASCII. -/
def lowerStr (s : String) : String := ⟨s.data.map lowCh⟩

/-- The whitespace class used by `trim` and by the `\s` in the fence
stripping regexes (ASCII part). -/
def isJsWs (c : Char) : Bool :=
  c == ' ' || c == '\t' || c == '\n' || c.toNat == 13 || c.toNat == 12 || c.toNat == 11

/-- JavaScript `s.trim()`. -/
def trimL (l : List Char) : List Char :=
  ((l.dropWhile isJsWs).reverse.dropWhile isJsWs).reverse

/-- JavaScript `s.trim()` on strings. -/
def trimStr (s : String) : String := ⟨trimL s.data⟩

/-- Digit test for ASCII characters. -/
def chDigit (c : Char) : Bool := 48 ≤ c.toNat && c.toNat ≤ 57

/-- Parse a non-empty all-digit character list as a natural number. -/
def digitsToNat : List Char → Option Nat
  | [] => none
  | cs => go cs 0
where go : List Char → Nat → Option Nat
  | [], acc => some acc
  | c :: cs, acc => if chDigit c then go cs (acc * 10 + (c.toNat - 48)) else none

/-- Split a character list at every occurrence of a separator char,
as `s.split('-')` does. -/
def splitOnCh (sep : Char) (l : List Char) : List (List Char) :=
  go l []
where go : List Char → List Char → List (List Char)
  | [], acc => [acc.reverse]
  | c :: cs, acc => if c == sep then acc.reverse :: go cs [] else go cs (c :: acc)

/-- Decimal digits of a positive number, fuel-driven. -/
def natDigitsAux : Nat → Nat → List Char
  | 0, _ => []
  | fuel + 1, n =>
    if n == 0 then [] else natDigitsAux fuel (n / 10) ++ [Char.ofNat (48 + n % 10)]

/-- Decimal rendering of a natural number. -/
def natToStr (n : Nat) : String := if n == 0 then "0" else ⟨natDigitsAux (n + 1) n⟩

/-- Left-pad a string with zeroes to a given width. -/
def padTo (w : Nat) (s : String) : String :=
  if s.data.length < w then ⟨List.replicate (w - s.data.length) '0' ++ s.data⟩ else s

/-! ## Calendar dates

`new Date('YYYY-MM-DD')` produces a UTC midnight timestamp, so date
differences, `setDate` shifts and `toISOString().split('T')[0]`
round-trips are exactly arithmetic on day numbers.  A day number here
counts days since 0000-03-01 (the standard era-based civil-date
correspondence); only differences and shifts of day numbers are ever
used, so the choice of epoch is immaterial. -/

/-- Gregorian leap-year test. -/
def isLeapYear (y : Nat) : Bool := (y % 4 == 0 && y % 100 != 0) || y % 400 == 0

/-- Days in a month of a given year. -/
def daysInMonth (y m : Nat) : Nat :=
  if m == 2 then (if isLeapYear y then 29 else 28)
  else if m == 4 || m == 6 || m == 9 || m == 11 then 30
  else 31

/-- Day number of a civil date (valid for `1 ≤ m ≤ 12`, `y ≥ 1`). -/
def daysFromCivil (y m d : Nat) : Nat :=
  let yy := if m ≤ 2 then y - 1 else y
  let era := yy / 400
  let yoe := yy % 400
  let mp := (m + 9) % 12
  let doy := (153 * mp + 2) / 5 + (d - 1)
  let doe := yoe * 365 + yoe / 4 - yoe / 100 + doy
  era * 146097 + doe

/-- Civil date `(year, month, day)` of a day number. -/
def civilFromDays (n : Nat) : Nat × Nat × Nat :=
  let era := n / 146097
  let doe := n % 146097
  let yoe := (doe - doe / 1460 + doe / 36524 - doe / 146096) / 365
  let y := yoe + era * 400
  let doy := doe - (365 * yoe + yoe / 4 - yoe / 100)
  let mp := (5 * doy + 2) / 153
  let d := doy - (153 * mp + 2) / 5 + 1
  let m := if mp < 10 then mp + 3 else mp - 9
  (if m ≤ 2 then y + 1 else y, m, d)

/-- Parse a `YYYY-MM-DD` string to a day number; `none` models the
invalid `Date` JavaScript produces for malformed date strings (every
comparison against an invalid date is false). -/
def parseDateStr (s : String) : Option Nat :=
  match splitOnCh '-' s.data with
  | [ys, ms, ds] =>
    match digitsToNat ys, digitsToNat ms, digitsToNat ds with
    | some y, some m, some d =>
      if 1 ≤ y && 1 ≤ m && m ≤ 12 && 1 ≤ d && d ≤ daysInMonth y m then
        some (daysFromCivil y m d)
      else none
    | _, _, _ => none
  | _ => none

/-- Render a day number back to `YYYY-MM-DD`, the composition
`toISOString().split('T')[0]`. -/
def fmtDate (n : Nat) : String :=
  let c := civilFromDays n
  padTo 4 (natToStr c.1) ++ "-" ++ padTo 2 (natToStr c.2.1) ++ "-" ++ padTo 2 (natToStr c.2.2)

/-! ## Data model (the JSON documents of the Cosmos containers) -/

/-- A task document of the `tasks` container. -/
structure StudyTask where
  id : String := ""
  userEmail : String := ""
  subject : String := ""
  topic : String := ""
  subtopic : String := ""
  duration : String := ""
  date : String := ""
  sessionType : String := ""
  status : String := ""
  aiExplanation : String := ""
  createdAt : String := ""
deriving DecidableEq

/-- The `onboardingData` payload of an onboarding document. -/
structure PlanData where
  mode : String := ""
  level : String := ""
  skill : String := ""
  examDate : String := ""
  syllabus : String := ""
  hoursPerDay : Nat := 0
  skillDuration : String := ""
deriving DecidableEq

/-- An onboarding (study-plan) document.  Both call sites of
`createOnboarding` in the server store a non-null `onboardingData`
object, so the payload is embedded directly. -/
structure OnbEntry where
  id : String := ""
  userEmail : String := ""
  mode : String := ""
  onboardingData : PlanData := {}
  createdAt : String := ""
  lastReplanned : String := ""
deriving DecidableEq

/-- A user document. -/
structure UserRec where
  id : String := ""
  email : String := ""
  name : String := ""
  hashedPassword : String := ""
  dailyHours : Nat := 0
  currentStreak : Nat := 0
  lastStreakDate : String := ""
  streakHistory : List String := []
  lastMoodDate : String := ""
  currentMood : String := ""
  moodHistory : List (String × String) := []
  createdAt : String := ""
deriving DecidableEq

/-- A stored quiz result document. -/
structure QuizRec where
  id : String := ""
  userEmail : String := ""
  subject : String := ""
  topic : String := ""
  score : Nat := 0
  total : Nat := 0
  weakSubtopics : List String := []
  stableSubtopics : List String := []
  timestamp : String := ""
deriving DecidableEq

/-- The persistent store (the four Cosmos containers, or the
`memoryStore` of the fallback; by the access-layer claim both present
the same user-scoped semantics). -/
structure DB where
  users : List UserRec := []
  onboarding : List OnbEntry := []
  tasks : List StudyTask := []
  quizResults : List QuizRec := []
deriving DecidableEq

/-! ## Database access layer (`db.js`)

Each operation is embedded in its in-memory-fallback semantics; the
`CosmosOutcome`-parameterised wrappers below reproduce the
`if (container) try … catch … ; fallback` shape of the source. -/

/-- Replace the first element satisfying the predicate, the semantics
of `findIndex` followed by an indexed assignment. -/
def updateFirst (p : α → Bool) (f : α → α) : List α → List α
  | [] => []
  | x :: xs => if p x then f x :: xs else x :: updateFirst p f xs

/-- `getUserByEmail` fallback: `memoryStore.users.find(u => u.email === email)`. -/
def memGetUserByEmail (db : DB) (email : String) : Option UserRec :=
  db.users.find? (fun u => u.email == email)

/-- Build the user document created by `createUser` (id and creation
time come from the clock / RNG, here parameters). -/
def mkUser (email name hashedPassword : String) (dailyHours : Nat)
    (genId now : String) : UserRec :=
  { id := genId, email := email, name := name, hashedPassword := hashedPassword,
    dailyHours := dailyHours, createdAt := now }

/-- `createUser` fallback: push the document and return it. -/
def memCreateUser (db : DB) (u : UserRec) : DB × UserRec :=
  ({ db with users := db.users ++ [u] }, u)

/-- `updateUser` fallback: merge the updates into the first user with
the given email; `none` when no such user exists. -/
def memUpdateUser (db : DB) (email : String) (upd : UserRec → UserRec) :
    DB × Option UserRec :=
  match db.users.find? (fun u => u.email == email) with
  | none => (db, none)
  | some u =>
    ({ db with users := updateFirst (fun v => v.email == email) upd db.users }, some (upd u))

/-- `createOnboarding` fallback: push the document (both server call
sites pass `{ lastReplanned: todayStr }` as the extra fields). -/
def memCreateOnboarding (db : DB) (e : OnbEntry) : DB × OnbEntry :=
  ({ db with onboarding := db.onboarding ++ [e] }, e)

/-- `getOnboarding` fallback:
`memoryStore.onboarding.filter(o => o.userEmail === userEmail)`. -/
def memGetOnboarding (db : DB) (email : String) : List OnbEntry :=
  db.onboarding.filter (fun o => o.userEmail == email)

/-- `updateOnboarding` fallback: merge into the first entry matching
id and user email. -/
def memUpdateOnboarding (db : DB) (id email : String) (upd : OnbEntry → OnbEntry) : DB :=
  { db with
    onboarding := updateFirst (fun o => o.id == id && o.userEmail == email) upd db.onboarding }

/-- The task document `saveTasks` builds for the `i`-th incoming task:
`{ ...task, userEmail, createdAt: now, id: task.id || generated }`. -/
def saveTaskItem (email now : String) (genId : Nat → String) (i : Nat)
    (t : StudyTask) : StudyTask :=
  { t with userEmail := email, createdAt := now,
           id := if t.id == "" then genId i else t.id }

/-- `saveTasks` fallback: append each tagged task, returning them. -/
def memSaveTasks (db : DB) (email now : String) (genId : Nat → String)
    (ts : List StudyTask) : DB × List StudyTask :=
  let items := ts.enum.map (fun p => saveTaskItem email now genId p.1 p.2)
  ({ db with tasks := db.tasks ++ items }, items)

/-- `getTasks` fallback:
`memoryStore.tasks.filter(t => t.userEmail === userEmail)`. -/
def memGetTasks (db : DB) (email : String) : List StudyTask :=
  db.tasks.filter (fun t => t.userEmail == email)

/-- `updateTaskProgress` fallback: merge the updates into the task
with the given id and user email, `none` when absent. -/
def memUpdateTaskProgress (db : DB) (id email : String)
    (patch : StudyTask → StudyTask) : DB × Option StudyTask :=
  match db.tasks.find? (fun t => t.id == id && t.userEmail == email) with
  | none => (db, none)
  | some t =>
    ({ db with tasks := updateFirst (fun s => s.id == id && s.userEmail == email) patch db.tasks },
     some (patch t))

/-- Should `deletePendingTasks(userEmail, subject)` keep this task?
A task is removed when it belongs to the user, is pending, and (when a
subject was passed, which is always a non-empty string at the call
sites) carries exactly that subject. -/
def keepOnDelete (email subject : String) (t : StudyTask) : Bool :=
  if t.userEmail == email && t.status == "pending" then
    subject != "" && t.subject != subject
  else true

/-- `deletePendingTasks` fallback. -/
def memDeletePendingTasks (db : DB) (email subject : String) : DB :=
  { db with tasks := db.tasks.filter (keepOnDelete email subject) }

/-- `saveQuizResult` fallback: push the stamped result document. -/
def memSaveQuizResult (db : DB) (email now genId : String) (r : QuizRec) : DB × QuizRec :=
  let item := { r with userEmail := email, timestamp := now, id := genId }
  ({ db with quizResults := db.quizResults ++ [item] }, item)

/-- `getQuizResults` fallback:
`memoryStore.quizResults.filter(r => r.userEmail === userEmail)`. -/
def memGetQuizResults (db : DB) (email : String) : List QuizRec :=
  db.quizResults.filter (fun r => r.userEmail == email)

/-- Insert a quiz result into a list kept newest-first by timestamp. -/
def insertTsDesc (q : QuizRec) : List QuizRec → List QuizRec
  | [] => [q]
  | x :: xs => if strLtB x.timestamp q.timestamp then q :: x :: xs else x :: insertTsDesc q xs

/-- `ORDER BY c.timestamp DESC`, the ordering the Cosmos query of
`getQuizResults` applies before the planning engine takes the five
most recent results. -/
def sortTsDesc (l : List QuizRec) : List QuizRec := l.foldr insertTsDesc []

end StudyPlanner

namespace StudyPlanner

/-! ## Cosmos wrappers (`db.js` operation shape)

Each source operation is `if (container) { try { cosmos path; return }
catch { log } } ; memory fallback`.  A `CosmosOutcome` input stands for
the container being uninitialized, the Cosmos call throwing, or the
Cosmos call returning a value. -/

/-- Outcome of one Cosmos container interaction. -/
inductive CosmosOutcome (α : Type) where
  | uninit
  | thrown (msg : String)
  | avail (v : α)

/-- The wrapper either used the Cosmos result or fell back to memory:
it cannot propagate the caught error. -/
def dbCreateUser (c : CosmosOutcome UserRec) (db : DB) (u : UserRec) : DB × UserRec :=
  match c with
  | .avail r => (db, r)
  | _ => memCreateUser db u

/-- `getUserByEmail`: an empty Cosmos result set also falls through to
the memory lookup, as in the source. -/
def dbGetUserByEmail (c : CosmosOutcome (List UserRec)) (db : DB) (email : String) :
    Option UserRec :=
  match c with
  | .avail (r :: _) => some r
  | .avail [] => memGetUserByEmail db email
  | _ => memGetUserByEmail db email

/-- `createOnboarding` wrapper. -/
def dbCreateOnboarding (c : CosmosOutcome OnbEntry) (db : DB) (e : OnbEntry) :
    DB × OnbEntry :=
  match c with
  | .avail r => (db, r)
  | _ => memCreateOnboarding db e

/-- `getOnboarding` wrapper. -/
def dbGetOnboarding (c : CosmosOutcome (List OnbEntry)) (db : DB) (email : String) :
    List OnbEntry :=
  match c with
  | .avail rs => rs
  | _ => memGetOnboarding db email

/-- `saveTasks` wrapper: the per-item loop falls back to memory for
each item whose Cosmos create is unavailable or throws. -/
def dbSaveTasksAux (c : Nat → CosmosOutcome StudyTask) (email now : String)
    (genId : Nat → String) : Nat → DB → List StudyTask → DB × List StudyTask
  | _, db, [] => (db, [])
  | i, db, t :: ts =>
    let item := saveTaskItem email now genId i t
    match c i with
    | .avail r =>
      let rec' := dbSaveTasksAux c email now genId (i + 1) db ts
      (rec'.1, r :: rec'.2)
    | _ =>
      let db1 := { db with tasks := db.tasks ++ [item] }
      let rec' := dbSaveTasksAux c email now genId (i + 1) db1 ts
      (rec'.1, item :: rec'.2)

/-- `saveTasks` wrapper entry point. -/
def dbSaveTasks (c : Nat → CosmosOutcome StudyTask) (db : DB) (email now : String)
    (genId : Nat → String) (ts : List StudyTask) : DB × List StudyTask :=
  dbSaveTasksAux c email now genId 0 db ts

/-- `getTasks` wrapper. -/
def dbGetTasks (c : CosmosOutcome (List StudyTask)) (db : DB) (email : String) :
    List StudyTask :=
  match c with
  | .avail rs => rs
  | _ => memGetTasks db email

/-- `updateTaskProgress` wrapper: `avail (some merged)` is a successful
Cosmos read-and-replace; `avail none` is a read with no resource, which
falls through to the memory store like the error cases. -/
def dbUpdateTaskProgress (c : CosmosOutcome (Option StudyTask)) (db : DB)
    (id email : String) (patch : StudyTask → StudyTask) : DB × Option StudyTask :=
  match c with
  | .avail (some merged) => (db, some merged)
  | .avail none => memUpdateTaskProgress db id email patch
  | _ => memUpdateTaskProgress db id email patch

/-! ## Gemini retry loop (`geminiUtils.js`, `callGeminiWithRetry`) -/

/-- The message of the quota abort. -/
def quotaErrMsg : String :=
  "Daily AI Quota Exceeded. Please try again later or check your API key."

/-- Quota / rate-limit error test of the source. -/
def isQuotaError (m : String) : Bool :=
  jsIncludes m "429" || jsIncludes m "Quota" || jsIncludes m "limit"

/-- Transient error test of the source. -/
def isTransientError (m : String) : Bool :=
  jsIncludes m "503" || jsIncludes m "500" || jsIncludes m "timeout" ||
  jsIncludes m "network" || jsIncludes m "ETIMEDOUT" || jsIncludes m "ECONNRESET"

/-- What one `model.generateContent` call does: return text or throw. -/
inductive AttemptOutcome where
  | ok (text : String)
  | err (msg : String)
deriving DecidableEq

/-- Observable behaviour of one run of the retry loop: the final
result, how many calls were made, and the back-off waits (ms) taken
between consecutive calls. -/
structure RetryTrace where
  result : Except String String
  attempts : Nat
  waits : List Nat

/-- The `while (retryCount <= maxRetries)` loop body, started at retry
count `k`; `outcomes j` is what the `j`-th call would do. -/
def runRetryFrom (outcomes : Nat → AttemptOutcome) (maxRetries : Nat) :
    Nat → List Nat → RetryTrace
  | k, waits =>
    match outcomes k with
    | .ok t => ⟨.ok t, k + 1, waits⟩
    | .err m =>
      if isQuotaError m then ⟨.error quotaErrMsg, k + 1, waits⟩
      else if h : isTransientError m ∧ k < maxRetries then
        runRetryFrom outcomes maxRetries (k + 1) (waits ++ [2 ^ k * 2000])
      else ⟨.error m, k + 1, waits⟩
termination_by k => maxRetries - k
decreasing_by omega

/-- `callGeminiWithRetry({ maxRetries = 2 })`. -/
def callGeminiWithRetry (outcomes : Nat → AttemptOutcome) (maxRetries : Nat := 2) :
    RetryTrace :=
  runRetryFrom outcomes maxRetries 0 []

/-! ## Gemini JSON extraction (`geminiUtils.js`, `parseGeminiJson`)

`JSON.parse` is the JavaScript runtime's parser, not code of this
repository, so it is a parameter `jsonParse` producing either a parsed
value or the thrown `SyntaxError` message. -/

/-- Remove a leading pattern, returning the remainder on a match. -/
def dropPfx : List Char → List Char → Option (List Char)
  | [], s => some s
  | _ :: _, [] => none
  | p :: ps, c :: cs => if p == c then dropPfx ps cs else none

/-- One global `replace(/pat\s?/g, '')` pass: every occurrence of the
pattern, together with at most one following whitespace character, is
removed.  Fuel-driven; `len + 1` fuel is enough since every step
consumes at least one input character (the patterns used are
non-empty). -/
def stripPatWsAux (pat : List Char) : Nat → List Char → List Char
  | 0, _ => []
  | _ + 1, [] => []
  | fuel + 1, c :: cs =>
    match dropPfx pat (c :: cs) with
    | some [] => []
    | some (r :: rs) =>
      if isJsWs r then stripPatWsAux pat fuel rs else stripPatWsAux pat fuel (r :: rs)
    | none => c :: stripPatWsAux pat fuel cs

/-- The fence-stripping step of `parseGeminiJson`:
`text.replace(/```json\s?/g, '').replace(/```\s?/g, '').trim()`. -/
def stripFences (s : String) : String :=
  let l1 := stripPatWsAux "```json".data (s.data.length + 1) s.data
  let l2 := stripPatWsAux "```".data (l1.length + 1) l1
  ⟨trimL l2⟩

/-- `indexOf` for one character. -/
def firstIdxAux (c : Char) : List Char → Nat → Option Nat
  | [], _ => none
  | x :: xs, i => if x == c then some i else firstIdxAux c xs (i + 1)

/-- `s.indexOf(c)`, `none` for `-1`. -/
def firstIdx (c : Char) (l : List Char) : Option Nat := firstIdxAux c l 0

/-- `lastIndexOf` for one character. -/
def lastIdxAux (c : Char) : List Char → Nat → Option Nat → Option Nat
  | [], _, best => best
  | x :: xs, i, best => lastIdxAux c xs (i + 1) (if x == c then some i else best)

/-- `s.lastIndexOf(c)`, `none` for `-1`. -/
def lastIdx (c : Char) (l : List Char) : Option Nat := lastIdxAux c l 0 none

/-- JavaScript `s.substring(a, b)`: clamps to the length and swaps the
endpoints when given in the wrong order. -/
def jsSubstring (l : List Char) (a b : Nat) : List Char :=
  (l.take (max a b)).drop (min a b)

/-- The brace fallback branch of the extraction. -/
def braceWindow (l : List Char) : Option (List Char) :=
  match firstIdx '{' l, lastIdx '}' l with
  | some i, some j => some (jsSubstring l i (j + 1))
  | _, _ => none

/-- The extraction step: prefer the bracket window when a `[` and a `]`
exist and the first `[` precedes the first `{` (or no `{` exists);
otherwise use the brace window if it exists. -/
def extractWindow (l : List Char) : Option (List Char) :=
  match firstIdx '[' l, lastIdx ']' l, firstIdx '{' l with
  | some i, some j, none => some (jsSubstring l i (j + 1))
  | some i, some j, some k =>
    if i < k then some (jsSubstring l i (j + 1)) else braceWindow l
  | _, _, _ => braceWindow l

/-- Prefix of every error `parseGeminiJson` throws. -/
def parseFailMsg (m : String) : String := "Failed to parse AI response: " ++ m

/-- `parseGeminiJson(text)`.  `none` input models `null`/`undefined`;
`ok none` is the `return null` for falsy input; `error m` is a thrown
error with message `m`. -/
def parseGeminiJson {J : Type} (jsonParse : String → Except String J)
    (text : Option String) : Except String (Option J) :=
  match text with
  | none => .ok none
  | some t =>
    if t == "" then .ok none
    else
      let cleaned := stripFences t
      match jsonParse cleaned with
      | .ok v => .ok (some v)
      | .error _ =>
        match extractWindow cleaned.data with
        | some w =>
          match jsonParse ⟨w⟩ with
          | .ok v => .ok (some v)
          | .error m => .error (parseFailMsg m)
        | none => .error (parseFailMsg "No JSON structure found in response")

end StudyPlanner

namespace StudyPlanner

/-! ## Planning engine (`planningEngine.js`) -/

/-- JavaScript `a || b` on strings (`""` is falsy). -/
def jsOrS (a b : String) : String := if a == "" then b else a

/-- `plan.level || plan.skill || 'General'`. -/
def planSubject (p : PlanData) : String := jsOrS p.level (jsOrS p.skill "General")

/-- The bidirectional case-insensitive containment test relating a
task to a plan subject. -/
def taskMatchesSubject (target : String) (t : StudyTask) : Bool :=
  let ts := lowerStr t.subject
  let tg := lowerStr target
  jsIncludes ts tg || jsIncludes tg ts

/-- The same containment test relating a quiz result to a plan
subject. -/
def quizMatchesSubject (target : String) (q : QuizRec) : Bool :=
  let s := lowerStr q.subject
  let tg := lowerStr target
  jsIncludes s tg || jsIncludes tg s

/-- `[...new Set(l)]`: deduplicate keeping first occurrences. -/
def firstDedup : List String → List String
  | [] => []
  | a :: l => a :: firstDedup (l.filter (fun b => b != a))
termination_by l => l.length
decreasing_by
  have := List.length_filter_le (fun b => b != a) l
  simp only [List.length_cons]
  omega

/-- The per-plan context object the engine assembles for the
regeneration prompt.  `avgScore` is the numeric average rendered into
`performanceIndex` (`toFixed(0)` number formatting is the runtime's,
abstracted as `fmtPct`). -/
structure PlanContext where
  id : String
  subject : String
  mode : String
  examDate : String
  isCrunchMode : Bool
  unfinishedTopics : List String
  totalPendingTasks : Nat
  avgScore : Option ℚ
  performanceIndex : String
  recentWeakTopics : List String
deriving DecidableEq

/-- Pending tasks of the plan dated strictly before today (the missed
deadlines). -/
def missedOf (todayStr : String) (planTasks : List StudyTask) : List StudyTask :=
  planTasks.filter (fun t => t.status == "pending" && strLtB t.date todayStr)

/-- Pending tasks of the plan dated today or later. -/
def upcomingOf (todayStr : String) (planTasks : List StudyTask) : List StudyTask :=
  planTasks.filter (fun t => t.status == "pending" && strGeB t.date todayStr)

/-- `plansContext` entry for one onboarding document (source lines
59–101). -/
def buildPlanContext (todayStr : String) (allTasks : List StudyTask)
    (quizzes : List QuizRec) (fmtPct : ℚ → String) (e : OnbEntry) : PlanContext :=
  let p := e.onboardingData
  let subj := planSubject p
  let planTasks := allTasks.filter (taskMatchesSubject subj)
  let missed := missedOf todayStr planTasks
  let pending := upcomingOf todayStr planTasks
  let unfinished := (missed ++ pending).map (fun t => t.subtopic)
  let examDate := jsOrS p.examDate "No deadline"
  let isCrunch := p.mode == "exam" && examDate != "No deadline" &&
    (match parseDateStr examDate, parseDateStr todayStr with
     | some ex, some td => (ex : Int) - td ≤ 3
     | _, _ => false)
  let relevant := (quizzes.filter (quizMatchesSubject subj)).take 5
  let avg : Option ℚ :=
    if relevant.length > 0 then
      some (relevant.foldl (fun acc q => acc + (q.score : ℚ) / q.total) 0
              / relevant.length * 100)
    else none
  -- `avgScore ? fmt(avgScore) : 'No data yet'`: JavaScript truthiness
  -- also sends a zero average to the no-data branch.
  let perf := match avg with
    | some v => if v == 0 then "No data yet" else fmtPct v
    | none => "No data yet"
  { id := e.id, subject := subj, mode := p.mode, examDate := examDate,
    isCrunchMode := isCrunch, unfinishedTopics := unfinished,
    totalPendingTasks := unfinished.length, avgScore := avg,
    performanceIndex := perf,
    recentWeakTopics := firstDedup (relevant.flatMap (fun q => q.weakSubtopics)) }

/-- The full prompt context: user streak, daily capacity, current
mood, and the per-plan contexts over all of the user's plans. -/
structure PromptContext where
  currentStreak : Nat
  dailyHours : Nat
  mood : String
  plans : List PlanContext
deriving DecidableEq

/-- Assemble the regeneration prompt context (`USER PROFILE` plus
`ACTIVE GOALS & STATUS`). -/
def buildPromptContext (todayStr : String) (user : UserRec) (mood : String)
    (allTasks : List StudyTask) (quizzes : List QuizRec) (fmtPct : ℚ → String)
    (entries : List OnbEntry) : PromptContext :=
  { currentStreak := user.currentStreak,
    dailyHours := if user.dailyHours == 0 then 4 else user.dailyHours,
    mood := mood,
    plans := entries.map (buildPlanContext todayStr allTasks quizzes fmtPct) }

/-- Outcome of `callGeminiWithRetry` followed by `parseGeminiJson`
inside the engine: the pipeline threw, produced an array of task
objects, or produced `null` / a non-array value. -/
inductive PlanLLMReply where
  | failure (msg : String)
  | tasks (ts : List StudyTask)
  | notArray
deriving DecidableEq

/-- Is this plan still active today?  (Expired exams are dropped;
`examDate >= todayStr` is the string comparison of the source.) -/
def isActivePlan (todayStr : String) (p : PlanData) : Bool :=
  if p.mode == "exam" && p.examDate != "" then strGeB p.examDate todayStr else true

/-- The user's active onboarding entries. -/
def activeEntriesOf (db : DB) (email todayStr : String) : List OnbEntry :=
  (memGetOnboarding db email).filter (fun e => isActivePlan todayStr e.onboardingData)

/-- Set `lastReplanned` on each listed entry via `updateOnboarding`. -/
def markReplanned (db : DB) (email todayStr : String) (es : List OnbEntry) : DB :=
  es.foldl (fun d e =>
    memUpdateOnboarding d e.id email (fun o => { o with lastReplanned := todayStr })) db

/-- Inputs of one engine run that come from the environment: the
clock, the number formatter, the id generator and the LLM reply. -/
structure EngineCtx where
  todayStr : String
  now : String := ""
  fmtPct : ℚ → String := fun _ => ""
  genTaskId : Nat → String := fun _ => ""
  reply : PlanLLMReply := .notArray

/-- Observable result of `ensureOptimalPlan`: the store afterwards,
the response object fields, and whether a Gemini call was issued. -/
structure EngineOut where
  db : DB
  redistributed : Bool
  count : Option Nat
  errorMsg : Option String
  llmCalled : Bool
deriving DecidableEq

/-- `PlanningEngine.ensureOptimalPlan(userEmail, currentMood, force)`. -/
def ensureOptimalPlan (ctx : EngineCtx) (email : String) (mood : String := "okay")
    (force : Bool := false) (db : DB) : EngineOut :=
  let todayStr := ctx.todayStr
  let user? := memGetUserByEmail db email
  let entries := memGetOnboarding db email
  if entries.isEmpty then ⟨db, false, none, none, false⟩
  else
    let actives := entries.filter (fun e => isActivePlan todayStr e.onboardingData)
    if actives.isEmpty then ⟨db, false, none, none, false⟩
    else
      let needsReplan := actives.any (fun e => e.lastReplanned != todayStr) || force
      if !needsReplan then ⟨db, false, none, none, false⟩
      else
        match user? with
        | none =>
          -- `user.dailyHours` on a missing user raises a TypeError that the
          -- outer catch turns into `{ error }`: no call, no update.
          ⟨db, false, none, some "Cannot read properties of null", false⟩
        | some user =>
          let allTasks := memGetTasks db email
          let quizzes := sortTsDesc (memGetQuizResults db email)
          let pctx := buildPromptContext todayStr user mood allTasks quizzes ctx.fmtPct entries
          match ctx.reply with
          | .tasks newTasks =>
            if newTasks.isEmpty then
              -- an empty parsed array: keep existing tasks, no marking
              ⟨db, false, some 0, none, true⟩
            else
              let db1 := pctx.plans.foldl (fun d c => memDeletePendingTasks d email c.subject) db
              let tagged := newTasks.map (fun t => { t with userEmail := email })
              let db2 := (memSaveTasks db1 email ctx.now ctx.genTaskId tagged).1
              let db3 := markReplanned db2 email todayStr actives
              ⟨db3, true, some newTasks.length, none, true⟩
          | .notArray => ⟨db, false, some 0, none, true⟩
          | .failure m =>
            let db1 := markReplanned db email todayStr actives
            ⟨db1, false, none, some m, true⟩

/-- `applySpacedRepetition(tasks, examDate)` (1-4-7 rule).  `todayN` is
the day number of the server clock; the randomized fresh ids of the
revision copies are the `rev3Id` / `rev6Id` parameters. -/
def revCopies (rev3Id rev6Id : StudyTask → String) (exam : Nat)
    (t : StudyTask) : List StudyTask :=
  match parseDateStr t.date with
  | none => []
  | some d =>
    (if d + 3 < exam then
      [{ t with id := rev3Id t, date := fmtDate (d + 3),
                sessionType := "Reinforcement Revision",
                aiExplanation := "Spaced repetition interval: Reviewing "
                  ++ t.subtopic ++ " to solidify memory." }]
     else []) ++
    (if d + 6 < exam then
      [{ t with id := rev6Id t, date := fmtDate (d + 6),
                sessionType := "Deep Revision",
                aiExplanation := "Second recall interval: Strengthening neural paths for "
                  ++ t.subtopic ++ "." }]
     else [])

def spacedCopies (rev3Id rev6Id : StudyTask → String) (exam : Nat)
    (tasks : List StudyTask) : List StudyTask :=
  (tasks.filter (fun t => jsIncludes t.sessionType "Learning")).flatMap
    (revCopies rev3Id rev6Id exam)

def applySpacedRepetition (todayN : Nat) (rev3Id rev6Id : StudyTask → String)
    (tasks : List StudyTask) (examDate : String) : List StudyTask :=
  match parseDateStr examDate with
  | none => tasks
  | some exam =>
    if (exam : Int) - todayN < 14 then tasks
    else tasks ++ spacedCopies rev3Id rev6Id exam tasks

end StudyPlanner

namespace StudyPlanner

/-! ## HTTP layer (`server.js`) -/

/-- The decoded token payload (`{ email, name }`). -/
structure AuthTok where
  email : String := ""
  name : String := ""
deriving DecidableEq

/-- An HTTP response, reduced to the observables the claims mention:
status code and `message` field. -/
structure HttpResp where
  status : Nat
  message : String := ""
deriving DecidableEq

/-- The request data the handlers read.  `taskPatch` stands for the
merge `{ ...task, ...req.body }` of `updateTaskProgress`. -/
structure ApiReq where
  authHeader : Option String := none
  name : String := ""
  email : String := ""
  password : String := ""
  dailyHours : Nat := 0
  mood : String := ""
  message : String := ""
  onboardingBody : PlanData := {}
  tasksBody : List StudyTask := []
  taskId : String := ""
  taskPatch : StudyTask → StudyTask := id
  quizSubject : String := ""
  quizTopic : String := ""

/-- Parsed quiz evaluation returned by Gemini
(`{ score, total, weakSubtopics, stableSubtopics }`). -/
structure EvalJson where
  score : Nat := 0
  total : Nat := 0
  weakSubtopics : List String := []
  stableSubtopics : List String := []
deriving DecidableEq

/-- Server environment: the clock, id generators, hashing, the base64
/ JSON token decoding, and the outcome of each external call a request
might make. -/
structure SrvCtx where
  todayStr : String := ""
  yesterdayStr : String := ""
  todayN : Nat := 0
  now : String := ""
  decodeTok : String → Option AuthTok := fun _ => none
  hash : String → String := id
  pwCheck : String → String → Bool := fun _ _ => false
  genUserId : String := ""
  genOnbId : String := ""
  genQuizId : String := ""
  genTaskId : Nat → String := fun _ => ""
  rev3Id : StudyTask → String := fun _ => ""
  rev6Id : StudyTask → String := fun _ => ""
  fmtPct : ℚ → String := fun _ => ""
  engineReply : PlanLLMReply := .notArray
  genReply : PlanLLMReply := .notArray
  chatReply : Except String String := .error ""
  quizGenReply : Except String String := .error ""
  evalReply : Except String EvalJson := .error ""
  learnReply : Except String String := .error ""
  insightsReply : Except String String := .error ""

/-- The engine environment a request hands to `ensureOptimalPlan`. -/
def engineCtxOf (c : SrvCtx) : EngineCtx :=
  { todayStr := c.todayStr, now := c.now, fmtPct := c.fmtPct,
    genTaskId := c.genTaskId, reply := c.engineReply }

/-- `verifyToken(req)`: requires a `Bearer ` authorization header and
a token whose base64 payload decodes to JSON (`decodeTok` models
`JSON.parse(Buffer.from(token, 'base64').toString())`, `none` being
the caught decode failure). -/
def verifyToken (decodeTok : String → Option AuthTok) (authHeader : Option String) :
    Option AuthTok :=
  match authHeader with
  | none => none
  | some h => if hasPfx "Bearer ".data h.data then decodeTok ⟨h.data.drop 7⟩ else none

/-- The 401 response every guarded route returns on a failed
verification. -/
def unauthResp : HttpResp := ⟨401, "Unauthorized"⟩

/-- `POST /api/auth/signup`. -/
def signupRoute (c : SrvCtx) (req : ApiReq) (db : DB) : DB × HttpResp :=
  match memGetUserByEmail db req.email with
  | some _ => (db, ⟨400, "User already exists"⟩)
  | none =>
    let u := mkUser req.email req.name (c.hash req.password)
      (if req.dailyHours == 0 then 4 else req.dailyHours) c.genUserId c.now
    ((memCreateUser db u).1, ⟨200, "Signup successful"⟩)

/-- `POST /api/auth/login`. -/
def loginRoute (c : SrvCtx) (req : ApiReq) (db : DB) : DB × HttpResp :=
  match memGetUserByEmail db req.email with
  | none => (db, ⟨401, "Invalid credentials"⟩)
  | some u =>
    if c.pwCheck req.password u.hashedPassword then (db, ⟨200, ""⟩)
    else (db, ⟨401, "Invalid credentials"⟩)

/-- `GET /api/user/profile`: resets a broken streak in the store. -/
def profileRoute (c : SrvCtx) (auth : AuthTok) (db : DB) : DB × HttpResp :=
  match memGetUserByEmail db auth.email with
  | none => (db, ⟨404, "User not found"⟩)
  | some u =>
    if u.currentStreak > 0 && u.lastStreakDate != c.todayStr
        && u.lastStreakDate != c.yesterdayStr then
      ((memUpdateUser db auth.email (fun v => { v with currentStreak := 0 })).1, ⟨200, ""⟩)
    else (db, ⟨200, ""⟩)

/-- `POST /api/user/mood` (the stored mood-history timestamp field is
reduced to the `(date, mood)` pair). -/
def moodRoute (c : SrvCtx) (auth : AuthTok) (req : ApiReq) (db : DB) : DB × HttpResp :=
  if req.mood == "" then (db, ⟨400, "Mood is required"⟩)
  else
    match memGetUserByEmail db auth.email with
    | none => (db, ⟨404, "User not found"⟩)
    | some u =>
      if u.lastMoodDate == c.todayStr then (db, ⟨400, "Mood already logged today"⟩)
      else
        let db1 := (memUpdateUser db auth.email (fun v =>
          { v with lastMoodDate := c.todayStr, currentMood := req.mood,
                   moodHistory := v.moodHistory ++ [(c.todayStr, req.mood)] })).1
        let eo := ensureOptimalPlan (engineCtxOf c) auth.email req.mood false db1
        (eo.db, ⟨200, "Mood saved successfully"⟩)

/-- `GET /api/onboarding` (read-only). -/
def onboardingGetRoute (_c : SrvCtx) (_auth : AuthTok) (db : DB) : DB × HttpResp :=
  (db, ⟨200, ""⟩)

/-- The onboarding document a server call site stores (`syllabusFiles`
are stripped before saving, so `PlanData` has no file payload). -/
def mkOnbEntry (c : SrvCtx) (email : String) (p : PlanData) : OnbEntry :=
  { id := c.genOnbId, userEmail := email, mode := p.mode, onboardingData := p,
    createdAt := c.now, lastReplanned := c.todayStr }

/-- `POST /api/onboarding`. -/
def onboardingPostRoute (c : SrvCtx) (auth : AuthTok) (req : ApiReq) (db : DB) :
    DB × HttpResp :=
  ((memCreateOnboarding db (mkOnbEntry c auth.email req.onboardingBody)).1,
   ⟨200, "Onboarding data received successfully."⟩)

/-- `GET /api/tasks` (read-only). -/
def tasksGetRoute (_c : SrvCtx) (_auth : AuthTok) (db : DB) : DB × HttpResp :=
  (db, ⟨200, ""⟩)

/-- `POST /api/tasks`. -/
def tasksPostRoute (c : SrvCtx) (auth : AuthTok) (req : ApiReq) (db : DB) :
    DB × HttpResp :=
  ((memSaveTasks db auth.email c.now c.genTaskId req.tasksBody).1, ⟨200, ""⟩)

/-- `PATCH /api/tasks/:id/progress`. -/
def taskProgressRoute (_c : SrvCtx) (auth : AuthTok) (req : ApiReq) (db : DB) :
    DB × HttpResp :=
  let r := memUpdateTaskProgress db req.taskId auth.email req.taskPatch
  match r.2 with
  | some _ => (r.1, ⟨200, ""⟩)
  | none => (r.1, ⟨404, "Task not found"⟩)

/-- The active-plan filter of `GET /api/study-plan/active` (source
lines 401–407), stated separately from the engine's so the claim that
both apply the same filter is a theorem about two definitions. -/
def serverPlanActive (todayStr : String) (p : PlanData) : Bool :=
  if p.mode == "exam" && p.examDate != "" then strGeB p.examDate todayStr else true

/-- `GET /api/study-plan/active`: filters stored plans, triggers the
silent replan, re-reads tasks (read-only beyond the engine run). -/
def activePlanRoute (c : SrvCtx) (auth : AuthTok) (db : DB) : DB × HttpResp :=
  let entries := memGetOnboarding db auth.email
  if entries.isEmpty then (db, ⟨200, ""⟩)
  else
    let activePlans :=
      (entries.filter (fun e => serverPlanActive c.todayStr e.onboardingData)).map
        (fun e => e.onboardingData)
    if activePlans.isEmpty then (db, ⟨200, ""⟩)
    else
      let mood := match memGetUserByEmail db auth.email with
        | some u => if u.currentMood == "" then "okay" else u.currentMood
        | none => "okay"
      let eo := ensureOptimalPlan (engineCtxOf c) auth.email mood false db
      (eo.db, ⟨200, ""⟩)

/-- The first missing required field of a generated task, if any. -/
def firstMissingField (t : StudyTask) : Option String :=
  if t.subject == "" then some "subject"
  else if t.topic == "" then some "topic"
  else if t.subtopic == "" then some "subtopic"
  else if t.duration == "" then some "duration"
  else if t.date == "" then some "date"
  else if t.sessionType == "" then some "sessionType"
  else none

/-- First validation failure over the generated array. -/
def firstValidationError : List StudyTask → Option String
  | [] => none
  | t :: ts =>
    match firstMissingField t with
    | some f => some ("Task missing required field: " ++ f)
    | none => firstValidationError ts

/-- `generatePlanFromOnboarding`: the Gemini call plus parse outcome
is `reply`; the function validates the parsed array and rethrows every
failure wrapped in `Failed to generate study plan:`. -/
def generatePlanFromOnboarding (reply : PlanLLMReply) : Except String (List StudyTask) :=
  match reply with
  | .failure m => .error ("Failed to generate study plan: " ++ m)
  | .notArray =>
    .error "Failed to generate study plan: Generated tasks array is empty or invalid"
  | .tasks ts =>
    if ts.isEmpty then
      .error "Failed to generate study plan: Generated tasks array is empty or invalid"
    else
      match firstValidationError ts with
      | some m => .error ("Failed to generate study plan: " ++ m)
      | none => .ok ts

/-- `POST /api/study-plan/generate`: generate, validate, apply spaced
repetition, save tasks, then save the onboarding document. -/
def generateRoute (c : SrvCtx) (auth : AuthTok) (req : ApiReq) (db : DB) :
    DB × HttpResp :=
  match generatePlanFromOnboarding c.genReply with
  | .error _ => (db, ⟨500, "Study plan generation failed"⟩)
  | .ok ts =>
    let optimized :=
      applySpacedRepetition c.todayN c.rev3Id c.rev6Id ts req.onboardingBody.examDate
    let db1 := (memSaveTasks db auth.email c.now c.genTaskId optimized).1
    ((memCreateOnboarding db1 (mkOnbEntry c auth.email req.onboardingBody)).1, ⟨200, ""⟩)

/-- `POST /api/chat` and `POST /api/explain`. -/
def chatRoute (c : SrvCtx) (_auth : AuthTok) (req : ApiReq) (db : DB) : DB × HttpResp :=
  if req.message == "" then (db, ⟨400, "Message is required"⟩)
  else
    match c.chatReply with
    | .ok _ => (db, ⟨200, ""⟩)
    | .error _ => (db, ⟨500, "Failed to generate explanation"⟩)

/-- `POST /api/quiz/generate` (no store access). -/
def quizGenerateRoute (c : SrvCtx) (_auth : AuthTok) (db : DB) : DB × HttpResp :=
  match c.quizGenReply with
  | .ok _ => (db, ⟨200, ""⟩)
  | .error _ => (db, ⟨500, "Failed to generate quiz"⟩)

/-- The updated user the streak section writes when the score passes
and the streak was not already maintained today. -/
def streakUpdatedUser (todayStr yesterdayStr : String) (u : UserRec) : UserRec :=
  let s := if u.lastStreakDate == yesterdayStr then u.currentStreak + 1 else 1
  let hist :=
    if u.streakHistory.contains todayStr then u.streakHistory
    else u.streakHistory ++ [todayStr]
  { u with currentStreak := s, lastStreakDate := todayStr, streakHistory := hist }

/-- Result of `POST /api/quiz/evaluate`, with the flag recording
whether `markTopicAsWeak` (a forced engine pass) was invoked. -/
structure QuizEvalOut where
  db : DB
  resp : HttpResp
  weakMarked : Bool
deriving DecidableEq

/-- `POST /api/quiz/evaluate`: evaluate via Gemini, update the streak
on a passing score (`score > total / 2`, i.e. `2 * score > total` on
the integer scores in play), mark the topic weak on a failing one, and
persist the result. -/
def quizEvaluateRoute (c : SrvCtx) (auth : AuthTok) (req : ApiReq) (db : DB) :
    QuizEvalOut :=
  match c.evalReply with
  | .error _ => ⟨db, ⟨500, "Failed to evaluate quiz"⟩, false⟩
  | .ok ev =>
    let db1 :=
      if 2 * ev.score > ev.total then
        match memGetUserByEmail db auth.email with
        | none => db
        | some u =>
          if u.lastStreakDate == c.todayStr then db
          else (memUpdateUser db auth.email (streakUpdatedUser c.todayStr c.yesterdayStr)).1
      else db
    let weakMarked := decide (2 * ev.score ≤ ev.total)
    let db2 :=
      if weakMarked then (ensureOptimalPlan (engineCtxOf c) auth.email "okay" false db1).db
      else db1
    let r : QuizRec :=
      { subject := req.quizSubject, topic := req.quizTopic, score := ev.score,
        total := ev.total, weakSubtopics := ev.weakSubtopics,
        stableSubtopics := ev.stableSubtopics }
    ⟨(memSaveQuizResult db2 auth.email c.now c.genQuizId r).1, ⟨200, ""⟩, weakMarked⟩

/-- `POST /api/resources`: after the guard it always answers 200 (both
the search and its fallback paths call `res.json`) and never touches
the store. -/
def resourcesRoute (_c : SrvCtx) (_auth : AuthTok) (db : DB) : DB × HttpResp :=
  (db, ⟨200, ""⟩)

/-- `POST /api/learning/content` (no store access). -/
def learningRoute (c : SrvCtx) (_auth : AuthTok) (db : DB) : DB × HttpResp :=
  match c.learnReply with
  | .ok _ => (db, ⟨200, ""⟩)
  | .error _ => (db, ⟨500, "Failed to generate learning content"⟩)

/-- `GET /api/insights` (read-only). -/
def insightsRoute (c : SrvCtx) (auth : AuthTok) (db : DB) : DB × HttpResp :=
  match memGetUserByEmail db auth.email with
  | none => (db, ⟨404, "User not found"⟩)
  | some _ =>
    match c.insightsReply with
    | .ok _ => (db, ⟨200, ""⟩)
    | .error _ => (db, ⟨500, "Failed to generate insights"⟩)

/-- Every route the server registers. -/
inductive ApiRoute where
  | signup | login | profile | mood | onboardingGet | onboardingPost
  | tasksGet | tasksPost | taskProgress | studyPlanActive | studyPlanGenerate
  | chat | explain | quizGenerate | quizEvaluate | resources | learningContent
  | insights
deriving DecidableEq

/-- Dispatch a request.  Except for signup and login, every handler
opens with the `verifyToken` guard of the source. -/
def handleRoute (c : SrvCtx) (req : ApiReq) (r : ApiRoute) (db : DB) : DB × HttpResp :=
  match r with
  | .signup => signupRoute c req db
  | .login => loginRoute c req db
  | .profile =>
    match verifyToken c.decodeTok req.authHeader with
    | none => (db, unauthResp)
    | some a => profileRoute c a db
  | .mood =>
    match verifyToken c.decodeTok req.authHeader with
    | none => (db, unauthResp)
    | some a => moodRoute c a req db
  | .onboardingGet =>
    match verifyToken c.decodeTok req.authHeader with
    | none => (db, unauthResp)
    | some a => onboardingGetRoute c a db
  | .onboardingPost =>
    match verifyToken c.decodeTok req.authHeader with
    | none => (db, unauthResp)
    | some a => onboardingPostRoute c a req db
  | .tasksGet =>
    match verifyToken c.decodeTok req.authHeader with
    | none => (db, unauthResp)
    | some a => tasksGetRoute c a db
  | .tasksPost =>
    match verifyToken c.decodeTok req.authHeader with
    | none => (db, unauthResp)
    | some a => tasksPostRoute c a req db
  | .taskProgress =>
    match verifyToken c.decodeTok req.authHeader with
    | none => (db, unauthResp)
    | some a => taskProgressRoute c a req db
  | .studyPlanActive =>
    match verifyToken c.decodeTok req.authHeader with
    | none => (db, unauthResp)
    | some a => activePlanRoute c a db
  | .studyPlanGenerate =>
    match verifyToken c.decodeTok req.authHeader with
    | none => (db, unauthResp)
    | some a => generateRoute c a req db
  | .chat =>
    match verifyToken c.decodeTok req.authHeader with
    | none => (db, unauthResp)
    | some a => chatRoute c a req db
  | .explain =>
    match verifyToken c.decodeTok req.authHeader with
    | none => (db, unauthResp)
    | some a => chatRoute c a req db
  | .quizGenerate =>
    match verifyToken c.decodeTok req.authHeader with
    | none => (db, unauthResp)
    | some a => quizGenerateRoute c a db
  | .quizEvaluate =>
    match verifyToken c.decodeTok req.authHeader with
    | none => (db, unauthResp)
    | some a =>
      let o := quizEvaluateRoute c a req db
      (o.db, o.resp)
  | .resources =>
    match verifyToken c.decodeTok req.authHeader with
    | none => (db, unauthResp)
    | some a => resourcesRoute c a db
  | .learningContent =>
    match verifyToken c.decodeTok req.authHeader with
    | none => (db, unauthResp)
    | some a => learningRoute c a db
  | .insights =>
    match verifyToken c.decodeTok req.authHeader with
    | none => (db, unauthResp)
    | some a => insightsRoute c a db

end StudyPlanner

namespace StudyPlanner

/-! ## Derived notions used by the statements -/

/-- The Cosmos interaction did not produce a value: container missing
or call thrown. -/
def cosmosFailed {α : Type} : CosmosOutcome α → Prop
  | .uninit => True
  | .thrown _ => True
  | .avail _ => False

/-- The task documents a `saveTasks` call writes for a given input
list. -/
def savedItems (email now : String) (genId : Nat → String) (ts : List StudyTask) :
    List StudyTask :=
  ts.enum.map (fun p => saveTaskItem email now genId p.1 p.2)

/-- Task store contents after a successful holistic replan: the
pending tasks of each plan subject are removed and the returned tasks
(tagged with the user's email) are appended. -/
def replaceTasks (db : DB) (email : String) (subjects : List String)
    (now : String) (genId : Nat → String) (ts : List StudyTask) : List StudyTask :=
  db.tasks.filter (fun t => subjects.all (fun s => keepOnDelete email s t))
    ++ savedItems email now genId (ts.map (fun t => { t with userEmail := email }))

/-- Identity of an onboarding document as `updateOnboarding` addresses
it. -/
def onbKey (o : OnbEntry) : String × String := (o.id, o.userEmail)

/-- The `lastReplanned` stamp applied by the engine. -/
def stampReplanned (todayStr : String) (o : OnbEntry) : OnbEntry :=
  { o with lastReplanned := todayStr }

end StudyPlanner

namespace StudyPlanner

/-! ## Basic lemmas about the string primitives -/

theorem lexLt_irrefl (l : List Char) : lexLt l l = false := by
  induction l with
  | nil => rfl
  | cons a as ih => simp [lexLt, ih]

theorem strGeB_self (s : String) : strGeB s s = true := by
  simp [strGeB, strLeB, lexLt_irrefl]

theorem strGeB_eq_not_strLtB (a b : String) : strGeB a b = !(strLtB a b) := rfl

/-! ## C10: authentication guard -/

/-- C10: every API route except signup and login rejects an
unauthenticated request with status 401 and message `Unauthorized`,
leaving the store untouched; `verifyToken` yields no user when the
authorization header is absent, when it does not start with `Bearer `,
and when the token payload fails to decode. -/
theorem unauthenticatedRequestsRejected :
    (∀ (c : SrvCtx) (req : ApiReq) (db : DB) (r : ApiRoute),
        r ≠ ApiRoute.signup → r ≠ ApiRoute.login →
        verifyToken c.decodeTok req.authHeader = none →
        handleRoute c req r db = (db, unauthResp)) ∧
    (∀ d : String → Option AuthTok, verifyToken d none = none) ∧
    (∀ (d : String → Option AuthTok) (h : String),
        hasPfx "Bearer ".data h.data = false → verifyToken d (some h) = none) ∧
    (∀ (d : String → Option AuthTok) (h : String),
        hasPfx "Bearer ".data h.data = true → d ⟨h.data.drop 7⟩ = none →
        verifyToken d (some h) = none) := by
  refine ⟨?_, ?_, ?_, ?_⟩
  · intro c req db r hs hl hv
    cases r
    · exact absurd rfl hs
    · exact absurd rfl hl
    all_goals simp [handleRoute, hv]
  · intro d; rfl
  · intro d h hh; simp [verifyToken, hh]
  · intro d h hh hd; simp [verifyToken, hh, hd]

/-- Closed instance of the C10 theorem: a request with no
authorization header to `GET /api/tasks` is answered 401 with the
store unchanged. -/
theorem unauthenticatedRequestsRejected_witness :
    handleRoute {} {} ApiRoute.tasksGet {} = ({}, unauthResp) :=
  unauthenticatedRequestsRejected.1 {} {} {} ApiRoute.tasksGet
    (by decide) (by decide) rfl

/-! ## C7: active-plan filter -/

/-- C7: a stored plan counts as active iff it is not an exam plan with
an `examDate` strictly before today (string comparison on `YYYY-MM-DD`
dates); an exam plan dated today is still active and a plan that is
not in exam mode or has no exam date is always active; the
`/api/study-plan/active` filter and the engine's replanning filter are
the same function; and when no plan is active `ensureOptimalPlan`
returns `{ redistributed: false }` without calling the LLM or touching
the store. -/
theorem activePlanFilterSpec :
    (∀ todayStr p, isActivePlan todayStr p = serverPlanActive todayStr p) ∧
    (∀ todayStr p, serverPlanActive todayStr p = false ↔
        (p.mode = "exam" ∧ p.examDate ≠ "" ∧ strLtB p.examDate todayStr = true)) ∧
    (∀ todayStr p, p.examDate = todayStr → serverPlanActive todayStr p = true) ∧
    (∀ todayStr p, p.mode ≠ "exam" ∨ p.examDate = "" →
        serverPlanActive todayStr p = true) ∧
    (∀ (ctx : EngineCtx) email mood force db,
        activeEntriesOf db email ctx.todayStr = [] →
        ensureOptimalPlan ctx email mood force db = ⟨db, false, none, none, false⟩) := by
  refine ⟨fun _ _ => rfl, ?_, ?_, ?_, ?_⟩
  · intro todayStr p
    by_cases hm : p.mode = "exam" <;> by_cases hd : p.examDate = "" <;>
      simp [serverPlanActive, hm, hd, strGeB_eq_not_strLtB]
  · intro todayStr p hd
    unfold serverPlanActive
    rw [hd]
    split
    · exact strGeB_self todayStr
    · rfl
  · intro todayStr p hp
    rcases hp with hm | hd
    · simp [serverPlanActive, hm]
    · simp [serverPlanActive, hd]
  · intro ctx email mood force db hact
    unfold ensureOptimalPlan
    have hact' : (memGetOnboarding db email).filter
        (fun e => isActivePlan ctx.todayStr e.onboardingData) = [] := hact
    by_cases he : (memGetOnboarding db email).isEmpty <;> simp [he, hact']

/-- Closed instance of the C7 theorem: an exam plan whose exam is
today is active, and an empty store triggers no replanning. -/
theorem activePlanFilterSpec_witness :
    serverPlanActive "2026-01-05" { mode := "exam", examDate := "2026-01-05" } = true ∧
    ensureOptimalPlan { todayStr := "2026-01-05" } "u@example.com" "okay" false {} =
      ⟨{}, false, none, none, false⟩ :=
  ⟨activePlanFilterSpec.2.2.1 "2026-01-05" { mode := "exam", examDate := "2026-01-05" } rfl,
   activePlanFilterSpec.2.2.2.2 { todayStr := "2026-01-05" } "u@example.com" "okay" false {} rfl⟩

end StudyPlanner

namespace StudyPlanner

/-! ## C4: retry loop lemmas -/

theorem runRetryFrom_ok (o : Nat → AttemptOutcome) (mr k : Nat) (w : List Nat)
    (t : String) (h : o k = .ok t) : runRetryFrom o mr k w = ⟨.ok t, k + 1, w⟩ := by
  unfold runRetryFrom
  simp [h]

theorem runRetryFrom_quota (o : Nat → AttemptOutcome) (mr k : Nat) (w : List Nat)
    (m : String) (h : o k = .err m) (hq : isQuotaError m = true) :
    runRetryFrom o mr k w = ⟨.error quotaErrMsg, k + 1, w⟩ := by
  unfold runRetryFrom
  simp [h, hq]

theorem runRetryFrom_fatal (o : Nat → AttemptOutcome) (mr k : Nat) (w : List Nat)
    (m : String) (h : o k = .err m) (hq : isQuotaError m = false)
    (hf : isTransientError m = false ∨ mr ≤ k) :
    runRetryFrom o mr k w = ⟨.error m, k + 1, w⟩ := by
  unfold runRetryFrom
  rcases hf with hf | hf
  · simp [h, hq, hf]
  · have hk : ¬ k < mr := by omega
    simp [h, hq, hk]

theorem runRetryFrom_step (o : Nat → AttemptOutcome) (mr k : Nat) (w : List Nat)
    (m : String) (h : o k = .err m) (hq : isQuotaError m = false)
    (ht : isTransientError m = true) (hk : k < mr) :
    runRetryFrom o mr k w = runRetryFrom o mr (k + 1) (w ++ [2 ^ k * 2000]) := by
  conv_lhs => unfold runRetryFrom
  simp [h, hq, ht, hk]

theorem runRetryFrom_skip (o : Nat → AttemptOutcome) (mr : Nat) :
    ∀ (j k : Nat) (w : List Nat), k + j ≤ mr →
      (∀ i, k ≤ i → i < k + j →
        ∃ m, o i = .err m ∧ isQuotaError m = false ∧ isTransientError m = true) →
      runRetryFrom o mr k w
        = runRetryFrom o mr (k + j) (w ++ (List.range j).map (fun i => 2 ^ (k + i) * 2000)) := by
  intro j
  induction j with
  | zero => intro k w _ _; simp
  | succ n ih =>
    intro k w hle hprev
    obtain ⟨m, hm, hq, ht⟩ := hprev k (Nat.le_refl k) (by omega)
    rw [runRetryFrom_step o mr k w m hm hq ht (by omega)]
    have hN : k + (n + 1) = (k + 1) + n := by omega
    have hL : w ++ (List.range (n + 1)).map (fun i => 2 ^ (k + i) * 2000)
        = (w ++ [2 ^ k * 2000]) ++ (List.range n).map (fun i => 2 ^ (k + 1 + i) * 2000) := by
      rw [List.range_succ_eq_map, List.map_cons, List.map_map]
      have hc : ((fun i => 2 ^ (k + i) * 2000) ∘ Nat.succ)
          = (fun i => 2 ^ (k + 1 + i) * 2000) := by
        funext i
        show 2 ^ (k + (i + 1)) * 2000 = 2 ^ (k + 1 + i) * 2000
        have he : k + (i + 1) = k + 1 + i := by omega
        rw [he]
      rw [hc]
      simp [List.append_assoc]
    rw [hN, hL]
    exact ih (k + 1) (w ++ [2 ^ k * 2000]) (by omega) (by
      intro i hi1 hi2
      exact hprev i (by omega) (by omega))

theorem runRetryFrom_attempts_le (o : Nat → AttemptOutcome) (mr : Nat) :
    ∀ (j k : Nat) (w : List Nat), k ≤ mr → mr - k ≤ j →
      (runRetryFrom o mr k w).attempts ≤ mr + 1 := by
  intro j
  induction j with
  | zero =>
    intro k w hk hj
    unfold runRetryFrom
    rcases ho : o k with t | m
    · simp [ho]
      omega
    · by_cases hq : isQuotaError m = true
      · simp [ho, hq]
        omega
      · have hlt : ¬ k < mr := by omega
        simp [ho, hq, hlt]
        omega
  | succ n ih =>
    intro k w hk hj
    unfold runRetryFrom
    rcases ho : o k with t | m
    · simp [ho]
      omega
    · by_cases hq : isQuotaError m = true
      · simp [ho, hq]
        omega
      · by_cases hcond : (isTransientError m = true ∧ k < mr)
        · have hrec := ih (k + 1) (w ++ [2 ^ k * 2000]) (by omega) (by omega)
          simp [ho, hq, hcond.1, hcond.2]
          exact hrec
        · have hsplit : isTransientError m = false ∨ ¬ k < mr := by
            by_cases ht : isTransientError m = true
            · exact .inr (fun hkk => hcond ⟨ht, hkk⟩)
            · exact .inl (by simpa using ht)
          rcases hsplit with h | h
          · simp [ho, hq, h]
            omega
          · simp [ho, hq, h]
            omega

end StudyPlanner

namespace StudyPlanner

theorem callGemini_reaches (o : Nat → AttemptOutcome) (mr k : Nat) (hk : k ≤ mr)
    (hprev : ∀ i, i < k →
      ∃ m, o i = .err m ∧ isQuotaError m = false ∧ isTransientError m = true) :
    callGeminiWithRetry o mr
      = runRetryFrom o mr k ((List.range k).map (fun i => 2 ^ i * 2000)) := by
  have h := runRetryFrom_skip o mr k 0 [] (by omega)
    (by intro i h1 h2; exact hprev i (by omega))
  simpa using h

/-- C4: `callGeminiWithRetry` makes at most `maxRetries + 1` calls (3
with the default `maxRetries = 2`).  After any run of transient
non-quota failures: an error containing `429`, `Quota` or `limit`
aborts immediately with the fixed quota message; an error containing
`503`, `500`, `timeout`, `network`, `ETIMEDOUT` or `ECONNRESET` at
retry count `k` waits `2^k * 2000` ms and retries until `maxRetries`
retries are exhausted, at which point it is rethrown unchanged; every
other error is rethrown at once without a retry. -/
theorem callGeminiRetrySpec :
    (∀ (o : Nat → AttemptOutcome) (mr : Nat), (callGeminiWithRetry o mr).attempts ≤ mr + 1) ∧
    (∀ o : Nat → AttemptOutcome, (callGeminiWithRetry o).attempts ≤ 3) ∧
    (∀ (o : Nat → AttemptOutcome) (mr k : Nat) (m : String), k ≤ mr →
      (∀ i, i < k →
        ∃ mi, o i = .err mi ∧ isQuotaError mi = false ∧ isTransientError mi = true) →
      o k = .err m → isQuotaError m = true →
      callGeminiWithRetry o mr
        = ⟨.error quotaErrMsg, k + 1, (List.range k).map (fun i => 2 ^ i * 2000)⟩) ∧
    (∀ (o : Nat → AttemptOutcome) (mr k : Nat) (m : String), k ≤ mr →
      (∀ i, i < k →
        ∃ mi, o i = .err mi ∧ isQuotaError mi = false ∧ isTransientError mi = true) →
      o k = .err m → isQuotaError m = false → isTransientError m = false →
      callGeminiWithRetry o mr
        = ⟨.error m, k + 1, (List.range k).map (fun i => 2 ^ i * 2000)⟩) ∧
    (∀ (o : Nat → AttemptOutcome) (mr : Nat) (m : String),
      (∀ i, i < mr →
        ∃ mi, o i = .err mi ∧ isQuotaError mi = false ∧ isTransientError mi = true) →
      o mr = .err m → isQuotaError m = false → isTransientError m = true →
      callGeminiWithRetry o mr
        = ⟨.error m, mr + 1, (List.range mr).map (fun i => 2 ^ i * 2000)⟩) ∧
    (∀ (o : Nat → AttemptOutcome) (mr k : Nat) (t : String), k ≤ mr →
      (∀ i, i < k →
        ∃ mi, o i = .err mi ∧ isQuotaError mi = false ∧ isTransientError mi = true) →
      o k = .ok t →
      callGeminiWithRetry o mr
        = ⟨.ok t, k + 1, (List.range k).map (fun i => 2 ^ i * 2000)⟩) := by
  refine ⟨?_, ?_, ?_, ?_, ?_, ?_⟩
  · intro o mr
    exact runRetryFrom_attempts_le o mr mr 0 [] (by omega) (by omega)
  · intro o
    exact runRetryFrom_attempts_le o 2 2 0 [] (by omega) (by omega)
  · intro o mr k m hk hprev hok hq
    rw [callGemini_reaches o mr k hk hprev]
    exact runRetryFrom_quota o mr k _ m hok hq
  · intro o mr k m hk hprev hok hq ht
    rw [callGemini_reaches o mr k hk hprev]
    exact runRetryFrom_fatal o mr k _ m hok hq (.inl ht)
  · intro o mr m hprev hok hq ht
    rw [callGemini_reaches o mr mr (Nat.le_refl mr) hprev]
    exact runRetryFrom_fatal o mr mr _ m hok hq (.inr (Nat.le_refl mr))
  · intro o mr k t hk hprev hok
    rw [callGemini_reaches o mr k hk hprev]
    exact runRetryFrom_ok o mr k _ t hok

/-- Closed instance of the C4 theorem: one transient `503` failure,
one 2000 ms back-off, then success on the second of at most three
attempts. -/
theorem callGeminiRetrySpec_witness :
    callGeminiWithRetry
        (fun i => if i == 0 then AttemptOutcome.err "503 Service Unavailable"
                  else AttemptOutcome.ok "done") 2
      = ⟨.ok "done", 1 + 1, (List.range 1).map (fun i => 2 ^ i * 2000)⟩ :=
  callGeminiRetrySpec.2.2.2.2.2 _ 2 1 "done" (by omega)
    (fun i hi => ⟨"503 Service Unavailable", by
      have h0 : i = 0 := by omega
      subst h0
      exact ⟨rfl, rfl, rfl⟩⟩)
    rfl

end StudyPlanner

namespace StudyPlanner

/-! ## C6: JSON extraction -/

theorem hasPfx_append (p rest : List Char) : hasPfx p (p ++ rest) = true := by
  induction p with
  | nil => rfl
  | cons c cs ih => simp [hasPfx, ih]

theorem parseFailMsg_prefix (m : String) :
    hasPfx "Failed to parse AI response:".data (parseFailMsg m).data = true := by
  have h1 : (parseFailMsg m).data = "Failed to parse AI response: ".data ++ m.data :=
    String.data_append _ _
  have h2 : "Failed to parse AI response: ".data
      = "Failed to parse AI response:".data ++ [' '] := by decide
  rw [h1, h2, List.append_assoc]
  exact hasPfx_append _ _

/-- C6: `parseGeminiJson` returns null on null or empty input;
otherwise it strips markdown code fences and returns the parse of the
cleaned text when that parses, else the parse of the extracted window
(substring from the first `[` to the last `]`, preferred when the
first `[` precedes the first `{` or no `{` exists, otherwise from the
first `{` to the last `}`); and whenever no extracted substring
parses, it throws an error whose message begins
`Failed to parse AI response:`. -/
theorem parseGeminiJsonSpec :
    (∀ (J : Type) (parse : String → Except String J),
        parseGeminiJson parse none = .ok none) ∧
    (∀ (J : Type) (parse : String → Except String J),
        parseGeminiJson parse (some "") = .ok none) ∧
    (∀ (J : Type) (parse : String → Except String J) (t : String) (v : J),
        t ≠ "" → parse (stripFences t) = .ok v →
        parseGeminiJson parse (some t) = .ok (some v)) ∧
    (∀ (J : Type) (parse : String → Except String J) (t e : String)
        (w : List Char) (v : J),
        t ≠ "" → parse (stripFences t) = .error e →
        extractWindow (stripFences t).data = some w → parse ⟨w⟩ = .ok v →
        parseGeminiJson parse (some t) = .ok (some v)) ∧
    (∀ (J : Type) (parse : String → Except String J) (t e : String)
        (w : List Char) (m : String),
        t ≠ "" → parse (stripFences t) = .error e →
        extractWindow (stripFences t).data = some w → parse ⟨w⟩ = .error m →
        parseGeminiJson parse (some t) = .error (parseFailMsg m)) ∧
    (∀ (J : Type) (parse : String → Except String J) (t e : String),
        t ≠ "" → parse (stripFences t) = .error e →
        extractWindow (stripFences t).data = none →
        parseGeminiJson parse (some t)
          = .error (parseFailMsg "No JSON structure found in response")) ∧
    (∀ m : String,
        hasPfx "Failed to parse AI response:".data (parseFailMsg m).data = true) ∧
    (∀ (l : List Char) (i j : Nat), firstIdx '[' l = some i → lastIdx ']' l = some j →
        firstIdx '{' l = none → extractWindow l = some (jsSubstring l i (j + 1))) ∧
    (∀ (l : List Char) (i j k : Nat), firstIdx '[' l = some i →
        lastIdx ']' l = some j → firstIdx '{' l = some k → i < k →
        extractWindow l = some (jsSubstring l i (j + 1))) ∧
    (∀ (l : List Char) (i j k : Nat), firstIdx '[' l = some i →
        lastIdx ']' l = some j → firstIdx '{' l = some k → ¬ i < k →
        extractWindow l = braceWindow l) ∧
    (∀ (l : List Char) (i j : Nat), firstIdx '{' l = some i → lastIdx '}' l = some j →
        braceWindow l = some (jsSubstring l i (j + 1))) := by
  refine ⟨?_, ?_, ?_, ?_, ?_, ?_, parseFailMsg_prefix, ?_, ?_, ?_, ?_⟩
  · intro J parse; rfl
  · intro J parse; rfl
  · intro J parse t v ht hp
    have hb : (t == "") = false := by simpa using ht
    simp [parseGeminiJson, hb, hp]
  · intro J parse t e w v ht hp hw hp2
    have hb : (t == "") = false := by simpa using ht
    simp [parseGeminiJson, hb, hp, hw, hp2]
  · intro J parse t e w m ht hp hw hp2
    have hb : (t == "") = false := by simpa using ht
    simp [parseGeminiJson, hb, hp, hw, hp2]
  · intro J parse t e ht hp hw
    have hb : (t == "") = false := by simpa using ht
    simp [parseGeminiJson, hb, hp, hw]
  · intro l i j hfb hlb hfB
    simp [extractWindow, hfb, hlb, hfB]
  · intro l i j k hfb hlb hfB hik
    simp [extractWindow, hfb, hlb, hfB, hik]
  · intro l i j k hfb hlb hfB hik
    simp [extractWindow, hfb, hlb, hfB, hik]
  · intro l i j hfB hlB
    simp [braceWindow, hfB, hlB]

/-- Closed instance of the C6 theorem: a fenced JSON array is cleaned
and parsed directly. -/
theorem parseGeminiJsonSpec_witness :
    parseGeminiJson
        (fun s => if s == "[1]" then Except.ok 42 else Except.error "SyntaxError")
        (some "```json\n[1]```")
      = .ok (some 42) :=
  parseGeminiJsonSpec.2.2.1 Nat
    (fun s => if s == "[1]" then Except.ok 42 else Except.error "SyntaxError")
    "```json\n[1]```" 42 (by decide) rfl

end StudyPlanner

namespace StudyPlanner

/-! ## C5: access-layer fallback -/

theorem dbSaveTasksAux_failed (c : Nat → CosmosOutcome StudyTask) (email now : String)
    (genQ : Nat → String) (hc : ∀ i, cosmosFailed (c i)) :
    ∀ (ts : List StudyTask) (i : Nat) (db : DB),
      dbSaveTasksAux c email now genQ i db ts
        = ({ db with tasks := db.tasks
              ++ (List.enumFrom i ts).map (fun p => saveTaskItem email now genQ p.1 p.2) },
           (List.enumFrom i ts).map (fun p => saveTaskItem email now genQ p.1 p.2)) := by
  intro ts
  induction ts with
  | nil => intro i db; simp [dbSaveTasksAux]
  | cons t rest ih =>
    intro i db
    have hci := hc i
    unfold dbSaveTasksAux
    rcases hcv : c i with _ | m | v
    · simp only [hcv]
      rw [ih (i + 1)]
      simp [List.enumFrom, List.append_assoc]
    · simp only [hcv]
      rw [ih (i + 1)]
      simp [List.enumFrom, List.append_assoc]
    · rw [hcv] at hci
      exact hci.elim

/-- C5: with the Cosmos container uninitialized or its call throwing,
every access-layer operation returns the in-memory fallback result
with user-scoped semantics instead of propagating the error:
`createUser`/`createOnboarding` append and return the document,
`getUserByEmail` finds the first stored user with the email,
`getOnboarding`/`getTasks` return exactly the entries whose
`userEmail` matches, `saveTasks` appends every tagged task, and
`updateTaskProgress` merges into the matching task, returning null
exactly when no task with the given id and user email exists. -/
theorem dbFallbackSpec :
    (∀ (c : CosmosOutcome UserRec) (db : DB) (u : UserRec), cosmosFailed c →
        dbCreateUser c db u = ({ db with users := db.users ++ [u] }, u)) ∧
    (∀ (c : CosmosOutcome (List UserRec)) (db : DB) (email : String), cosmosFailed c →
        dbGetUserByEmail c db email = db.users.find? (fun u => u.email == email)) ∧
    (∀ (c : CosmosOutcome OnbEntry) (db : DB) (e : OnbEntry), cosmosFailed c →
        dbCreateOnboarding c db e = ({ db with onboarding := db.onboarding ++ [e] }, e)) ∧
    (∀ (c : CosmosOutcome (List OnbEntry)) (db : DB) (email : String), cosmosFailed c →
        dbGetOnboarding c db email = db.onboarding.filter (fun o => o.userEmail == email)) ∧
    (∀ (c : Nat → CosmosOutcome StudyTask) (db : DB) (email now : String)
        (genId : Nat → String) (ts : List StudyTask), (∀ i, cosmosFailed (c i)) →
        dbSaveTasks c db email now genId ts
          = ({ db with tasks := db.tasks ++ savedItems email now genId ts },
             savedItems email now genId ts)) ∧
    (∀ (c : CosmosOutcome (List StudyTask)) (db : DB) (email : String), cosmosFailed c →
        dbGetTasks c db email = db.tasks.filter (fun t => t.userEmail == email)) ∧
    (∀ (c : CosmosOutcome (Option StudyTask)) (db : DB) (id email : String)
        (patch : StudyTask → StudyTask), cosmosFailed c →
        dbUpdateTaskProgress c db id email patch
          = memUpdateTaskProgress db id email patch) ∧
    (∀ (db : DB) (id email : String) (patch : StudyTask → StudyTask),
        (memUpdateTaskProgress db id email patch).2 = none ↔
          ∀ t ∈ db.tasks, ¬(t.id = id ∧ t.userEmail = email)) := by
  refine ⟨?_, ?_, ?_, ?_, ?_, ?_, ?_, ?_⟩
  · intro c db u hc
    cases c with
    | uninit => rfl
    | thrown m => rfl
    | avail v => exact hc.elim
  · intro c db email hc
    cases c with
    | uninit => rfl
    | thrown m => rfl
    | avail v => exact hc.elim
  · intro c db e hc
    cases c with
    | uninit => rfl
    | thrown m => rfl
    | avail v => exact hc.elim
  · intro c db email hc
    cases c with
    | uninit => rfl
    | thrown m => rfl
    | avail v => exact hc.elim
  · intro c db email now genId ts hc
    exact dbSaveTasksAux_failed c email now genId hc ts 0 db
  · intro c db email hc
    cases c with
    | uninit => rfl
    | thrown m => rfl
    | avail v => exact hc.elim
  · intro c db id email patch hc
    cases c with
    | uninit => rfl
    | thrown m => rfl
    | avail v =>
      cases v with
      | none => rfl
      | some t => exact hc.elim
  · intro db id email patch
    unfold memUpdateTaskProgress
    rcases hf : db.tasks.find? (fun t => t.id == id && t.userEmail == email) with _ | t
    · simp only [hf]
      constructor
      · intro _ t ht
        rw [List.find?_eq_none] at hf
        simpa using hf t ht
      · intro _
        trivial
    · simp only [hf]
      constructor
      · intro h
        simp at h
      · intro hall
        exact absurd (by simpa using List.find?_some hf)
          (hall t (List.mem_of_find?_eq_some hf))

/-- Closed instance of the C5 theorem: with the tasks container
throwing, `getTasks` serves exactly the caller's tasks from memory. -/
theorem dbFallbackSpec_witness :
    dbGetTasks (.thrown "503") { tasks := [{ id := "t1", userEmail := "a@b" },
        { id := "t2", userEmail := "c@d" }] } "a@b"
      = [{ id := "t1", userEmail := "a@b" }] :=
  (dbFallbackSpec.2.2.2.2.2.1 (.thrown "503")
    { tasks := [{ id := "t1", userEmail := "a@b" }, { id := "t2", userEmail := "c@d" }] }
    "a@b" trivial).trans (by decide)

end StudyPlanner

namespace StudyPlanner

/-! ## Engine lemmas shared by the replanning claims -/

theorem updateFirst_of_none {α : Type} (p : α → Bool) (f : α → α) :
    ∀ l : List α, (∀ x ∈ l, p x = false) → updateFirst p f l = l := by
  intro l
  induction l with
  | nil => intro _; rfl
  | cons x xs ih =>
    intro h
    have hx := h x (List.mem_cons_self x xs)
    simp [updateFirst, hx]
    exact ih (fun y hy => h y (List.mem_cons_of_mem x hy))

theorem find?_updateFirst {α : Type} (p : α → Bool) (f : α → α)
    (hf : ∀ x, p x = true → p (f x) = true) :
    ∀ l : List α, (updateFirst p f l).find? p = (l.find? p).map f := by
  intro l
  induction l with
  | nil => rfl
  | cons x xs ih =>
    by_cases hx : p x = true
    · simp [updateFirst, hx, List.find?_cons, hf x hx]
    · have hx' : p x = false := by simpa using hx
      simp [updateFirst, hx', List.find?_cons, ih]

theorem deleteFold_users (email : String) (subs : List PlanContext) :
    ∀ db : DB,
      (subs.foldl (fun d c => memDeletePendingTasks d email c.subject) db).users
        = db.users := by
  induction subs with
  | nil => intro db; rfl
  | cons c cs ih => intro db; exact ih _

theorem deleteFold_onboarding (email : String) (subs : List PlanContext) :
    ∀ db : DB,
      (subs.foldl (fun d c => memDeletePendingTasks d email c.subject) db).onboarding
        = db.onboarding := by
  induction subs with
  | nil => intro db; rfl
  | cons c cs ih => intro db; exact ih _

theorem deleteFold_quiz (email : String) (subs : List PlanContext) :
    ∀ db : DB,
      (subs.foldl (fun d c => memDeletePendingTasks d email c.subject) db).quizResults
        = db.quizResults := by
  induction subs with
  | nil => intro db; rfl
  | cons c cs ih => intro db; exact ih _

theorem deleteFold_tasks (email : String) (subs : List PlanContext) :
    ∀ db : DB,
      (subs.foldl (fun d c => memDeletePendingTasks d email c.subject) db).tasks
        = db.tasks.filter (fun t => subs.all (fun c => keepOnDelete email c.subject t)) := by
  induction subs with
  | nil => intro db; simp
  | cons c cs ih =>
    intro db
    rw [List.foldl_cons, ih]
    show (memDeletePendingTasks db email c.subject).tasks.filter _ = _
    rw [memDeletePendingTasks]
    rw [List.filter_filter]
    apply List.filter_congr
    intro t _
    simp [List.all_cons, Bool.and_comm]

theorem markReplanned_users (email today : String) (es : List OnbEntry) :
    ∀ db : DB, (markReplanned db email today es).users = db.users := by
  induction es with
  | nil => intro db; rfl
  | cons e es ih => intro db; exact ih _

theorem markReplanned_tasks (email today : String) (es : List OnbEntry) :
    ∀ db : DB, (markReplanned db email today es).tasks = db.tasks := by
  induction es with
  | nil => intro db; rfl
  | cons e es ih => intro db; exact ih _

theorem markReplanned_quiz (email today : String) (es : List OnbEntry) :
    ∀ db : DB, (markReplanned db email today es).quizResults = db.quizResults := by
  induction es with
  | nil => intro db; rfl
  | cons e es ih => intro db; exact ih _

end StudyPlanner

namespace StudyPlanner

theorem ensure_noop_entries (ctx : EngineCtx) (email mood : String) (force : Bool)
    (db : DB) (h1 : (memGetOnboarding db email).isEmpty = true) :
    ensureOptimalPlan ctx email mood force db = ⟨db, false, none, none, false⟩ := by
  unfold ensureOptimalPlan
  simp [h1]

theorem ensure_noop_actives (ctx : EngineCtx) (email mood : String) (force : Bool)
    (db : DB)
    (h2 : ((memGetOnboarding db email).filter
      (fun e => isActivePlan ctx.todayStr e.onboardingData)).isEmpty = true) :
    ensureOptimalPlan ctx email mood force db = ⟨db, false, none, none, false⟩ := by
  unfold ensureOptimalPlan
  by_cases h1 : (memGetOnboarding db email).isEmpty <;> simp [h1, h2]

theorem ensure_noop_noneed (ctx : EngineCtx) (email mood : String) (force : Bool)
    (db : DB)
    (h3 : (((memGetOnboarding db email).filter
      (fun e => isActivePlan ctx.todayStr e.onboardingData)).any
        (fun e => e.lastReplanned != ctx.todayStr) || force) = false) :
    ensureOptimalPlan ctx email mood force db = ⟨db, false, none, none, false⟩ := by
  have h3' : (!(((memGetOnboarding db email).filter
      (fun e => isActivePlan ctx.todayStr e.onboardingData)).any
        (fun e => e.lastReplanned != ctx.todayStr) || force)) = true := by
    rw [h3]
    rfl
  unfold ensureOptimalPlan
  by_cases h1 : (memGetOnboarding db email).isEmpty
  · simp [h1]
  by_cases h2 : ((memGetOnboarding db email).filter
      (fun e => isActivePlan ctx.todayStr e.onboardingData)).isEmpty
  · simp [h1, h2]
  · simp only [h1, h2, h3', Bool.false_eq_true, if_false, if_true]

theorem ensure_nouser (ctx : EngineCtx) (email mood : String) (force : Bool) (db : DB)
    (h2 : ((memGetOnboarding db email).filter
      (fun e => isActivePlan ctx.todayStr e.onboardingData)).isEmpty = false)
    (h3 : (((memGetOnboarding db email).filter
      (fun e => isActivePlan ctx.todayStr e.onboardingData)).any
        (fun e => e.lastReplanned != ctx.todayStr) || force) = true)
    (hu : memGetUserByEmail db email = none) :
    ensureOptimalPlan ctx email mood force db
      = ⟨db, false, none, some "Cannot read properties of null", false⟩ := by
  have h1 : (memGetOnboarding db email).isEmpty = false := by
    rcases he : memGetOnboarding db email with _ | ⟨x, xs⟩
    · rw [he] at h2
      simp at h2
    · rfl
  have h3' : (!(((memGetOnboarding db email).filter
      (fun e => isActivePlan ctx.todayStr e.onboardingData)).any
        (fun e => e.lastReplanned != ctx.todayStr) || force)) = false := by
    rw [h3]
    rfl
  unfold ensureOptimalPlan
  simp only [h1, h2, h3', hu, Bool.false_eq_true, if_false]

theorem ensure_success_eq (ctx : EngineCtx) (email mood : String) (force : Bool)
    (db : DB) (u : UserRec) (ts : List StudyTask)
    (h2 : ((memGetOnboarding db email).filter
      (fun e => isActivePlan ctx.todayStr e.onboardingData)).isEmpty = false)
    (h3 : (((memGetOnboarding db email).filter
      (fun e => isActivePlan ctx.todayStr e.onboardingData)).any
        (fun e => e.lastReplanned != ctx.todayStr) || force) = true)
    (hu : memGetUserByEmail db email = some u)
    (hr : ctx.reply = .tasks ts) (hts : ts.isEmpty = false) :
    ensureOptimalPlan ctx email mood force db =
      ⟨markReplanned
          ((memSaveTasks
              ((memGetOnboarding db email).foldl
                (fun d e => memDeletePendingTasks d email (planSubject e.onboardingData)) db)
              email ctx.now ctx.genTaskId (ts.map (fun t => { t with userEmail := email }))).1)
          email ctx.todayStr (activeEntriesOf db email ctx.todayStr),
        true, some ts.length, none, true⟩ := by
  have h1 : (memGetOnboarding db email).isEmpty = false := by
    rcases he : memGetOnboarding db email with _ | ⟨x, xs⟩
    · rw [he] at h2
      simp at h2
    · rfl
  have h3' : (!(((memGetOnboarding db email).filter
      (fun e => isActivePlan ctx.todayStr e.onboardingData)).any
        (fun e => e.lastReplanned != ctx.todayStr) || force)) = false := by
    rw [h3]
    rfl
  unfold ensureOptimalPlan
  simp only [h1, h2, h3', hu, hr, hts, Bool.false_eq_true, if_false]
  simp only [activeEntriesOf, buildPromptContext, List.foldl_map]
  rfl

theorem ensure_failure_eq (ctx : EngineCtx) (email mood : String) (force : Bool)
    (db : DB) (u : UserRec) (m : String)
    (h2 : ((memGetOnboarding db email).filter
      (fun e => isActivePlan ctx.todayStr e.onboardingData)).isEmpty = false)
    (h3 : (((memGetOnboarding db email).filter
      (fun e => isActivePlan ctx.todayStr e.onboardingData)).any
        (fun e => e.lastReplanned != ctx.todayStr) || force) = true)
    (hu : memGetUserByEmail db email = some u)
    (hr : ctx.reply = .failure m) :
    ensureOptimalPlan ctx email mood force db =
      ⟨markReplanned db email ctx.todayStr (activeEntriesOf db email ctx.todayStr),
        false, none, some m, true⟩ := by
  have h1 : (memGetOnboarding db email).isEmpty = false := by
    rcases he : memGetOnboarding db email with _ | ⟨x, xs⟩
    · rw [he] at h2
      simp at h2
    · rfl
  have h3' : (!(((memGetOnboarding db email).filter
      (fun e => isActivePlan ctx.todayStr e.onboardingData)).any
        (fun e => e.lastReplanned != ctx.todayStr) || force)) = false := by
    rw [h3]
    rfl
  unfold ensureOptimalPlan
  simp only [h1, h2, h3', hu, hr, Bool.false_eq_true, if_false]
  simp [activeEntriesOf]

theorem ensure_emptyreply (ctx : EngineCtx) (email mood : String) (force : Bool)
    (db : DB) (u : UserRec) (ts : List StudyTask)
    (h2 : ((memGetOnboarding db email).filter
      (fun e => isActivePlan ctx.todayStr e.onboardingData)).isEmpty = false)
    (h3 : (((memGetOnboarding db email).filter
      (fun e => isActivePlan ctx.todayStr e.onboardingData)).any
        (fun e => e.lastReplanned != ctx.todayStr) || force) = true)
    (hu : memGetUserByEmail db email = some u)
    (hr : ctx.reply = .tasks ts) (hts : ts.isEmpty = true) :
    ensureOptimalPlan ctx email mood force db = ⟨db, false, some 0, none, true⟩ := by
  have h1 : (memGetOnboarding db email).isEmpty = false := by
    rcases he : memGetOnboarding db email with _ | ⟨x, xs⟩
    · rw [he] at h2
      simp at h2
    · rfl
  have h3' : (!(((memGetOnboarding db email).filter
      (fun e => isActivePlan ctx.todayStr e.onboardingData)).any
        (fun e => e.lastReplanned != ctx.todayStr) || force)) = false := by
    rw [h3]
    rfl
  unfold ensureOptimalPlan
  simp only [h1, h2, h3', hu, hr, hts, Bool.false_eq_true, if_false]
  simp

theorem ensure_notarray (ctx : EngineCtx) (email mood : String) (force : Bool)
    (db : DB) (u : UserRec)
    (h2 : ((memGetOnboarding db email).filter
      (fun e => isActivePlan ctx.todayStr e.onboardingData)).isEmpty = false)
    (h3 : (((memGetOnboarding db email).filter
      (fun e => isActivePlan ctx.todayStr e.onboardingData)).any
        (fun e => e.lastReplanned != ctx.todayStr) || force) = true)
    (hu : memGetUserByEmail db email = some u)
    (hr : ctx.reply = .notArray) :
    ensureOptimalPlan ctx email mood force db = ⟨db, false, some 0, none, true⟩ := by
  have h1 : (memGetOnboarding db email).isEmpty = false := by
    rcases he : memGetOnboarding db email with _ | ⟨x, xs⟩
    · rw [he] at h2
      simp at h2
    · rfl
  have h3' : (!(((memGetOnboarding db email).filter
      (fun e => isActivePlan ctx.todayStr e.onboardingData)).any
        (fun e => e.lastReplanned != ctx.todayStr) || force)) = false := by
    rw [h3]
    rfl
  unfold ensureOptimalPlan
  simp only [h1, h2, h3', hu, hr, Bool.false_eq_true, if_false]

end StudyPlanner

namespace StudyPlanner

theorem deleteFoldE_tasks (email : String) (es : List OnbEntry) :
    ∀ db : DB,
      (es.foldl (fun d e => memDeletePendingTasks d email (planSubject e.onboardingData)) db).tasks
        = db.tasks.filter
            (fun t => es.all (fun e => keepOnDelete email (planSubject e.onboardingData) t)) := by
  induction es with
  | nil => intro db; simp
  | cons e es ih =>
    intro db
    rw [List.foldl_cons, ih]
    show (memDeletePendingTasks db email (planSubject e.onboardingData)).tasks.filter _ = _
    rw [memDeletePendingTasks]
    rw [List.filter_filter]
    apply List.filter_congr
    intro t _
    simp [List.all_cons, Bool.and_comm]

theorem deleteFoldE_users (email : String) (es : List OnbEntry) :
    ∀ db : DB,
      (es.foldl (fun d e => memDeletePendingTasks d email (planSubject e.onboardingData)) db).users
        = db.users := by
  induction es with
  | nil => intro db; rfl
  | cons e es ih => intro db; exact ih _

theorem deleteFoldE_onboarding (email : String) (es : List OnbEntry) :
    ∀ db : DB,
      (es.foldl (fun d e => memDeletePendingTasks d email (planSubject e.onboardingData)) db).onboarding
        = db.onboarding := by
  induction es with
  | nil => intro db; rfl
  | cons e es ih => intro db; exact ih _

theorem memSaveTasks_fst_tasks (db : DB) (email now : String) (genId : Nat → String)
    (ts : List StudyTask) :
    (memSaveTasks db email now genId ts).1.tasks
      = db.tasks ++ savedItems email now genId ts := rfl

theorem keepOnDelete_not_pending (email s : String) (t : StudyTask)
    (h : ¬ t.status = "pending") : keepOnDelete email s t = true := by
  have hs : (t.status == "pending") = false := by simpa using h
  simp [keepOnDelete, hs]

theorem ensure_users_eq (ctx : EngineCtx) (email mood : String) (force : Bool)
    (db : DB) : (ensureOptimalPlan ctx email mood force db).db.users = db.users := by
  by_cases h2 : ((memGetOnboarding db email).filter
      (fun e => isActivePlan ctx.todayStr e.onboardingData)).isEmpty
  · rw [ensure_noop_actives ctx email mood force db h2]
  have h2' : ((memGetOnboarding db email).filter
      (fun e => isActivePlan ctx.todayStr e.onboardingData)).isEmpty = false := by
    simpa using h2
  by_cases h3 : (((memGetOnboarding db email).filter
      (fun e => isActivePlan ctx.todayStr e.onboardingData)).any
        (fun e => e.lastReplanned != ctx.todayStr) || force) = true
  case neg =>
    have h3' : (((memGetOnboarding db email).filter
        (fun e => isActivePlan ctx.todayStr e.onboardingData)).any
          (fun e => e.lastReplanned != ctx.todayStr) || force) = false := by
      simpa using h3
    rw [ensure_noop_noneed ctx email mood force db h3']
  rcases hu : memGetUserByEmail db email with _ | u
  · rw [ensure_nouser ctx email mood force db h2' h3 hu]
  rcases hr : ctx.reply with m | ts | _
  · rw [ensure_failure_eq ctx email mood force db u m h2' h3 hu hr]
    exact markReplanned_users _ _ _ _
  · by_cases hts : ts.isEmpty
    · rw [ensure_emptyreply ctx email mood force db u ts h2' h3 hu hr hts]
    · have hts' : ts.isEmpty = false := by simpa using hts
      rw [ensure_success_eq ctx email mood force db u ts h2' h3 hu hr hts']
      rw [markReplanned_users]
      show ((memGetOnboarding db email).foldl
        (fun d e => memDeletePendingTasks d email (planSubject e.onboardingData)) db).users = _
      exact deleteFoldE_users email _ db
  · rw [ensure_notarray ctx email mood force db u h2' h3 hu hr]

/-! ## C8: completed work preserved -/

/-- C8: a successful replan never deletes or modifies completed work:
before saving the LLM's tasks the engine deletes only tasks whose
status is `pending` (scoped to the user and each plan's subject), so
every task stored with status `completed` before the replan is still
stored, unchanged, afterwards; conversely, any stored task that is
gone after the run was a pending task. -/
theorem replanPreservesCompletedTasks (ctx : EngineCtx) (email mood : String)
    (force : Bool) (db : DB) (ts : List StudyTask) (hr : ctx.reply = .tasks ts) :
    (∀ t ∈ db.tasks, t.status = "completed" →
        t ∈ (ensureOptimalPlan ctx email mood force db).db.tasks) ∧
    (∀ t ∈ db.tasks, t ∉ (ensureOptimalPlan ctx email mood force db).db.tasks →
        t.status = "pending") := by
  suffices hkeep : ∀ t ∈ db.tasks, ¬ t.status = "pending" →
      t ∈ (ensureOptimalPlan ctx email mood force db).db.tasks by
    refine ⟨?_, ?_⟩
    · intro t ht hc
      refine hkeep t ht ?_
      rw [hc]
      decide
    · intro t ht hnot
      by_contra hne
      exact hnot (hkeep t ht hne)
  intro t ht hstat
  by_cases h2 : ((memGetOnboarding db email).filter
      (fun e => isActivePlan ctx.todayStr e.onboardingData)).isEmpty
  · rw [ensure_noop_actives ctx email mood force db h2]
    exact ht
  have h2' : ((memGetOnboarding db email).filter
      (fun e => isActivePlan ctx.todayStr e.onboardingData)).isEmpty = false := by
    simpa using h2
  by_cases h3 : (((memGetOnboarding db email).filter
      (fun e => isActivePlan ctx.todayStr e.onboardingData)).any
        (fun e => e.lastReplanned != ctx.todayStr) || force) = true
  case neg =>
    have h3' : (((memGetOnboarding db email).filter
        (fun e => isActivePlan ctx.todayStr e.onboardingData)).any
          (fun e => e.lastReplanned != ctx.todayStr) || force) = false := by
      simpa using h3
    rw [ensure_noop_noneed ctx email mood force db h3']
    exact ht
  rcases hu : memGetUserByEmail db email with _ | u
  · rw [ensure_nouser ctx email mood force db h2' h3 hu]
    exact ht
  by_cases hts : ts.isEmpty
  · rw [ensure_emptyreply ctx email mood force db u ts h2' h3 hu hr hts]
    exact ht
  · have hts' : ts.isEmpty = false := by simpa using hts
    rw [ensure_success_eq ctx email mood force db u ts h2' h3 hu hr hts']
    rw [markReplanned_tasks, memSaveTasks_fst_tasks, deleteFoldE_tasks]
    refine List.mem_append_left _ ?_
    rw [List.mem_filter]
    refine ⟨ht, ?_⟩
    rw [List.all_eq_true]
    intro e _
    exact keepOnDelete_not_pending email _ t hstat

/-- Closed instance of the C8 theorem: a completed calculus task
survives a successful replan that replaces the pending ones. -/
theorem replanPreservesCompletedTasks_witness :
    ({ id := "t1", userEmail := "u@x", subject := "math", subtopic := "Done",
       status := "completed", date := "2026-01-01" } : StudyTask) ∈
      (ensureOptimalPlan
        { todayStr := "2026-01-05",
          reply := .tasks [{ subject := "math", subtopic := "New",
                             status := "pending", date := "2026-01-06" }] }
        "u@x" "okay" false
        { users := [{ email := "u@x" }],
          onboarding := [{ id := "o1", userEmail := "u@x", mode := "skill",
                           onboardingData := { mode := "skill", skill := "math" } }],
          tasks := [{ id := "t1", userEmail := "u@x", subject := "math",
                      subtopic := "Done", status := "completed",
                      date := "2026-01-01" }] }).db.tasks :=
  (replanPreservesCompletedTasks
    { todayStr := "2026-01-05",
      reply := .tasks [{ subject := "math", subtopic := "New",
                         status := "pending", date := "2026-01-06" }] }
    "u@x" "okay" false
    { users := [{ email := "u@x" }],
      onboarding := [{ id := "o1", userEmail := "u@x", mode := "skill",
                       onboardingData := { mode := "skill", skill := "math" } }],
      tasks := [{ id := "t1", userEmail := "u@x", subject := "math",
                  subtopic := "Done", status := "completed",
                  date := "2026-01-01" }] }
    [{ subject := "math", subtopic := "New", status := "pending",
       date := "2026-01-06" }] rfl).1
    { id := "t1", userEmail := "u@x", subject := "math", subtopic := "Done",
      status := "completed", date := "2026-01-01" }
    (by decide) rfl

end StudyPlanner

namespace StudyPlanner

/-! ## C9: quiz streak update -/

theorem memSaveQuizResult_fst_users (db : DB) (email now genId : String) (r : QuizRec) :
    (memSaveQuizResult db email now genId r).1.users = db.users := rfl

theorem memUpdateUser_fst_users (db : DB) (email : String) (upd : UserRec → UserRec) :
    (memUpdateUser db email upd).1.users
      = updateFirst (fun v => v.email == email) upd db.users := by
  unfold memUpdateUser
  rcases hf : db.users.find? (fun v => v.email == email) with _ | u
  · simp only [hf]
    have hnone : updateFirst (fun v => v.email == email) upd db.users = db.users := by
      apply updateFirst_of_none
      intro x hx
      rw [List.find?_eq_none] at hf
      simpa using hf x hx
    rw [hnone]
  · simp only [hf]

theorem quizEval_users_eq (c : SrvCtx) (auth : AuthTok) (req : ApiReq) (db : DB)
    (ev : EvalJson) (hev : c.evalReply = .ok ev) :
    (quizEvaluateRoute c auth req db).db.users
      = (if 2 * ev.score > ev.total then
          match memGetUserByEmail db auth.email with
          | none => db.users
          | some u =>
            if u.lastStreakDate == c.todayStr then db.users
            else updateFirst (fun v => v.email == auth.email)
                   (streakUpdatedUser c.todayStr c.yesterdayStr) db.users
         else db.users) := by
  unfold quizEvaluateRoute
  simp only [hev]
  by_cases hp : 2 * ev.score > ev.total
  · have hw : decide (2 * ev.score ≤ ev.total) = false := by
      simp
      omega
    simp only [hp, if_pos, hw, Bool.false_eq_true, if_false, if_true]
    rw [memSaveQuizResult_fst_users]
    rcases hu : memGetUserByEmail db auth.email with _ | u
    · simp only [hu]
    · simp only [hu]
      by_cases hg : u.lastStreakDate == c.todayStr
      · simp only [hg, if_pos, if_true]
      · have hg' : (u.lastStreakDate == c.todayStr) = false := by simpa using hg
        simp only [hg', Bool.false_eq_true, if_false]
        exact memUpdateUser_fst_users db auth.email _
  · have hw : decide (2 * ev.score ≤ ev.total) = true := by
      simp
      omega
    simp only [hp, if_neg, hw, if_true, if_false]
    rw [memSaveQuizResult_fst_users, ensure_users_eq]

/-- C9: the quiz-evaluation route updates the streak only on a passing
score (`score > total / 2`) when the streak was not already maintained
today; the update sets the streak to the previous value plus one when
`lastStreakDate` was yesterday and to 1 otherwise, stamps
`lastStreakDate` with today, and appends today to `streakHistory` at
most once; on a failing score the streak fields stay unchanged and the
topic is instead marked weak (a replanning engine pass); a second
passing evaluation the same day changes nothing. -/
theorem quizStreakSpec :
    (∀ (c : SrvCtx) (auth : AuthTok) (req : ApiReq) (db : DB) (ev : EvalJson),
      c.evalReply = .ok ev →
      (quizEvaluateRoute c auth req db).db.users
        = (if 2 * ev.score > ev.total then
            match memGetUserByEmail db auth.email with
            | none => db.users
            | some u =>
              if u.lastStreakDate == c.todayStr then db.users
              else updateFirst (fun v => v.email == auth.email)
                     (streakUpdatedUser c.todayStr c.yesterdayStr) db.users
           else db.users)) ∧
    (∀ (c : SrvCtx) (auth : AuthTok) (req : ApiReq) (db : DB) (ev : EvalJson),
      c.evalReply = .ok ev →
      (quizEvaluateRoute c auth req db).weakMarked = decide (2 * ev.score ≤ ev.total)) ∧
    (∀ (todayStr yesterdayStr : String) (u : UserRec),
      (streakUpdatedUser todayStr yesterdayStr u).currentStreak
          = (if u.lastStreakDate == yesterdayStr then u.currentStreak + 1 else 1) ∧
      (streakUpdatedUser todayStr yesterdayStr u).lastStreakDate = todayStr ∧
      (streakUpdatedUser todayStr yesterdayStr u).streakHistory
          = (if u.streakHistory.contains todayStr then u.streakHistory
             else u.streakHistory ++ [todayStr])) ∧
    (∀ (c c2 : SrvCtx) (auth : AuthTok) (req req2 : ApiReq) (db : DB)
        (ev ev2 : EvalJson) (u : UserRec),
      c.evalReply = .ok ev → 2 * ev.score > ev.total →
      memGetUserByEmail db auth.email = some u →
      c2.todayStr = c.todayStr → c2.evalReply = .ok ev2 → 2 * ev2.score > ev2.total →
      (quizEvaluateRoute c2 auth req2 ((quizEvaluateRoute c auth req db).db)).db.users
        = (quizEvaluateRoute c auth req db).db.users) := by
  refine ⟨quizEval_users_eq, ?_, ?_, ?_⟩
  · intro c auth req db ev hev
    unfold quizEvaluateRoute
    simp only [hev]
  · intro todayStr yesterdayStr u
    refine ⟨rfl, rfl, rfl⟩
  · intro c c2 auth req req2 db ev ev2 u hev hp hu hc2 hev2 hp2
    have h1 := quizEval_users_eq c auth req db ev hev
    have h2 := quizEval_users_eq c2 auth req2 ((quizEvaluateRoute c auth req db).db) ev2 hev2
    rw [h2]
    by_cases hg : u.lastStreakDate == c.todayStr
    · -- already maintained today: first call left the users untouched
      have husers : (quizEvaluateRoute c auth req db).db.users = db.users := by
        rw [h1, if_pos hp, hu]
        simp [hg]
      have hu2 : memGetUserByEmail ((quizEvaluateRoute c auth req db).db) auth.email
          = some u := by
        show ((quizEvaluateRoute c auth req db).db).users.find? _ = _
        rw [husers]
        exact hu
      rw [hu2, if_pos hp2]
      have hg2 : (u.lastStreakDate == c2.todayStr) = true := by
        rw [hc2]
        exact hg
      simp [hg2, husers]
    · -- first call stamped lastStreakDate with today
      have hg' : (u.lastStreakDate == c.todayStr) = false := by simpa using hg
      have husers : (quizEvaluateRoute c auth req db).db.users
          = updateFirst (fun v => v.email == auth.email)
              (streakUpdatedUser c.todayStr c.yesterdayStr) db.users := by
        rw [h1, if_pos hp, hu]
        simp [hg']
      have hfind : ((quizEvaluateRoute c auth req db).db).users.find?
            (fun v => v.email == auth.email)
          = some (streakUpdatedUser c.todayStr c.yesterdayStr u) := by
        rw [husers]
        rw [find?_updateFirst (fun v => v.email == auth.email)
          (streakUpdatedUser c.todayStr c.yesterdayStr) (fun x hx => hx)]
        rw [show db.users.find? (fun v => v.email == auth.email)
            = memGetUserByEmail db auth.email from rfl, hu]
        rfl
      have hu2 : memGetUserByEmail ((quizEvaluateRoute c auth req db).db) auth.email
          = some (streakUpdatedUser c.todayStr c.yesterdayStr u) := hfind
      rw [hu2, if_pos hp2]
      have hg2 : ((streakUpdatedUser c.todayStr c.yesterdayStr u).lastStreakDate
          == c2.todayStr) = true := by
        rw [hc2]
        show (c.todayStr == c.todayStr) = true
        simp
      simp [hg2]

/-- Closed instance of the C9 theorem: a 4/5 score with
`lastStreakDate` equal to yesterday bumps the streak from 2 to 3 and
stamps today. -/
theorem quizStreakSpec_witness :
    (quizEvaluateRoute
        { todayStr := "2026-01-05", yesterdayStr := "2026-01-04",
          evalReply := .ok { score := 4, total := 5 } }
        { email := "u@x" } {}
        { users := [{ email := "u@x", currentStreak := 2,
                      lastStreakDate := "2026-01-04" }] }).db.users
      = [{ email := "u@x", currentStreak := 3, lastStreakDate := "2026-01-05",
           streakHistory := ["2026-01-05"] }] :=
  (quizStreakSpec.1
    { todayStr := "2026-01-05", yesterdayStr := "2026-01-04",
      evalReply := .ok { score := 4, total := 5 } }
    { email := "u@x" } {}
    { users := [{ email := "u@x", currentStreak := 2,
                  lastStreakDate := "2026-01-04" }] }
    { score := 4, total := 5 } rfl).trans (by decide)

end StudyPlanner

namespace StudyPlanner

/-! ## C3: once-per-day replanning -/

theorem onbKey_stamp (today : String) (o : OnbEntry) :
    onbKey (stampReplanned today o) = onbKey o := rfl

theorem memSaveTasks_fst_onboarding (db : DB) (email now : String)
    (genId : Nat → String) (ts : List StudyTask) :
    (memSaveTasks db email now genId ts).1.onboarding = db.onboarding := rfl

theorem updateFirst_eq_map_of_nodup (id email : String) (f : OnbEntry → OnbEntry) :
    ∀ l : List OnbEntry, (l.map onbKey).Nodup →
      updateFirst (fun o => o.id == id && o.userEmail == email) f l
        = l.map (fun o => if o.id == id && o.userEmail == email then f o else o) := by
  intro l
  induction l with
  | nil => intro _; rfl
  | cons o os ih =>
    intro hnd
    rw [List.map_cons, List.nodup_cons] at hnd
    obtain ⟨hnotmem, hndos⟩ := hnd
    by_cases hp : (o.id == id && o.userEmail == email) = true
    · simp only [updateFirst, hp, if_true, List.map_cons]
      congr 1
      have hconst : ∀ x ∈ os,
          (if x.id == id && x.userEmail == email then f x else x) = x := by
        intro x hx
        by_cases hpx : (x.id == id && x.userEmail == email) = true
        · exfalso
          apply hnotmem
          have ho' : o.id = id ∧ o.userEmail = email := by simpa using hp
          have hx' : x.id = id ∧ x.userEmail = email := by simpa using hpx
          have hkeys : onbKey x = onbKey o := by
            unfold onbKey
            rw [ho'.1, ho'.2, hx'.1, hx'.2]
          rw [← hkeys]
          exact List.mem_map_of_mem onbKey hx
        · have hpx' : (x.id == id && x.userEmail == email) = false := by simpa using hpx
          simp [hpx']
      calc os = os.map (fun x => x) := by rw [List.map_id']
        _ = os.map (fun x => if x.id == id && x.userEmail == email then f x else x) := by
            apply List.map_congr_left
            intro x hx
            exact (hconst x hx).symm
    · have hp' : (o.id == id && o.userEmail == email) = false := by simpa using hp
      simp only [updateFirst, hp', Bool.false_eq_true, if_false, List.map_cons]
      rw [ih hndos]

theorem markReplanned_onboarding_eq (email today : String) :
    ∀ (es : List OnbEntry) (db : DB), (db.onboarding.map onbKey).Nodup →
      (markReplanned db email today es).onboarding
        = db.onboarding.map (fun o =>
            if es.any (fun e => o.id == e.id && o.userEmail == email) then
              stampReplanned today o
            else o) := by
  intro es
  induction es with
  | nil =>
    intro db _
    show db.onboarding = _
    calc db.onboarding = db.onboarding.map (fun o => o) := by rw [List.map_id']
      _ = _ := by
          apply List.map_congr_left
          intro o _
          simp
  | cons e es ih =>
    intro db hnd
    show (markReplanned (memUpdateOnboarding db e.id email
        (fun o => { o with lastReplanned := today })) email today es).onboarding = _
    have hstep : (memUpdateOnboarding db e.id email
        (fun o => { o with lastReplanned := today })).onboarding
        = db.onboarding.map (fun o =>
            if o.id == e.id && o.userEmail == email then stampReplanned today o else o) := by
      show updateFirst (fun o => o.id == e.id && o.userEmail == email) _ db.onboarding = _
      exact updateFirst_eq_map_of_nodup e.id email _ db.onboarding hnd
    have hkeys : ((memUpdateOnboarding db e.id email
        (fun o => { o with lastReplanned := today })).onboarding.map onbKey)
        = db.onboarding.map onbKey := by
      rw [hstep, List.map_map]
      apply List.map_congr_left
      intro o _
      by_cases hp : (o.id == e.id && o.userEmail == email) = true
      · simp [Function.comp, hp, onbKey_stamp]
      · have hp' : (o.id == e.id && o.userEmail == email) = false := by simpa using hp
        simp [Function.comp, hp']
    rw [ih _ (by rw [hkeys]; exact hnd), hstep, List.map_map]
    apply List.map_congr_left
    intro o _
    by_cases hp : (o.id == e.id && o.userEmail == email) = true
    · simp only [Function.comp, hp, if_true]
      have hid : (stampReplanned today o).id = o.id := rfl
      have hem : (stampReplanned today o).userEmail = o.userEmail := rfl
      by_cases hany : (es.any (fun x => o.id == x.id && o.userEmail == email)) = true
      · simp only [hid, hem, hany, if_true, List.any_cons, hp, Bool.true_or]
        rfl
      · have hany' : (es.any (fun x => o.id == x.id && o.userEmail == email)) = false := by
          simpa using hany
        simp only [hid, hem, hany', Bool.false_eq_true, if_false, List.any_cons, hp,
          Bool.true_or, if_true]
    · have hp' : (o.id == e.id && o.userEmail == email) = false := by simpa using hp
      simp only [Function.comp, hp', Bool.false_eq_true, if_false, List.any_cons]
      rw [Bool.false_or]

theorem markReplanned_actives_stamped (email today : String) (db : DB)
    (hnd : (db.onboarding.map onbKey).Nodup) :
    ∀ o ∈ (markReplanned db email today (activeEntriesOf db email today)).onboarding,
      o.userEmail = email → isActivePlan today o.onboardingData = true →
      o.lastReplanned = today := by
  rw [markReplanned_onboarding_eq email today _ db hnd]
  intro o' ho' hmail hact
  obtain ⟨o, ho, rfl⟩ := List.mem_map.mp ho'
  by_cases hany : ((activeEntriesOf db email today).any
      (fun e => o.id == e.id && o.userEmail == email)) = true
  · rw [if_pos hany] at hmail hact ⊢
    rfl
  · exfalso
    apply hany
    have hany' := hany
    rw [if_neg (by simpa using hany)] at hmail hact
    rw [List.any_eq_true]
    refine ⟨o, ?_, by simp [hmail]⟩
    unfold activeEntriesOf memGetOnboarding
    rw [List.mem_filter]
    refine ⟨?_, hact⟩
    rw [List.mem_filter]
    exact ⟨ho, by simp [hmail]⟩

end StudyPlanner

namespace StudyPlanner

theorem mem_activeEntriesOf (db : DB) (email today : String) (e : OnbEntry) :
    e ∈ activeEntriesOf db email today ↔
      e ∈ db.onboarding ∧ e.userEmail = email
        ∧ isActivePlan today e.onboardingData = true := by
  unfold activeEntriesOf memGetOnboarding
  rw [List.mem_filter, List.mem_filter]
  simp [and_assoc]

theorem ensure_noop_when_stamped (ctx : EngineCtx) (email mood : String) (db : DB)
    (hall : ∀ e ∈ activeEntriesOf db email ctx.todayStr,
      e.lastReplanned = ctx.todayStr) :
    ensureOptimalPlan ctx email mood false db = ⟨db, false, none, none, false⟩ := by
  apply ensure_noop_noneed
  rw [Bool.or_false]
  rw [List.any_eq_false]
  intro e he
  have hl := hall e he
  simp [hl]

theorem markReplanned_actives_stamped2 (email today : String) (db db2 : DB)
    (honb : db2.onboarding = db.onboarding)
    (hnd : (db.onboarding.map onbKey).Nodup) :
    ∀ o ∈ (markReplanned db2 email today (activeEntriesOf db email today)).onboarding,
      o.userEmail = email → isActivePlan today o.onboardingData = true →
      o.lastReplanned = today := by
  have heq : activeEntriesOf db email today = activeEntriesOf db2 email today := by
    unfold activeEntriesOf memGetOnboarding
    rw [honb]
  rw [heq]
  intro o ho hmail hact
  exact markReplanned_actives_stamped email today db2
    (by rw [honb]; exact hnd) o ho hmail hact

theorem ensure_marks_stamped (ctx : EngineCtx) (email mood : String) (force : Bool)
    (db : DB) (hnd : (db.onboarding.map onbKey).Nodup)
    (hreply : match ctx.reply with
      | PlanLLMReply.notArray => False
      | PlanLLMReply.tasks ts => ts ≠ []
      | PlanLLMReply.failure _ => True)
    (hllm : (ensureOptimalPlan ctx email mood force db).llmCalled = true) :
    ∀ o ∈ (ensureOptimalPlan ctx email mood force db).db.onboarding,
      o.userEmail = email → isActivePlan ctx.todayStr o.onboardingData = true →
      o.lastReplanned = ctx.todayStr := by
  intro o ho hmail hact
  by_cases h2 : ((memGetOnboarding db email).filter
      (fun e => isActivePlan ctx.todayStr e.onboardingData)).isEmpty
  · rw [ensure_noop_actives ctx email mood force db h2] at hllm
    simp at hllm
  have h2' : ((memGetOnboarding db email).filter
      (fun e => isActivePlan ctx.todayStr e.onboardingData)).isEmpty = false := by
    simpa using h2
  by_cases h3 : (((memGetOnboarding db email).filter
      (fun e => isActivePlan ctx.todayStr e.onboardingData)).any
        (fun e => e.lastReplanned != ctx.todayStr) || force) = true
  case neg =>
    have h3' : (((memGetOnboarding db email).filter
        (fun e => isActivePlan ctx.todayStr e.onboardingData)).any
          (fun e => e.lastReplanned != ctx.todayStr) || force) = false := by
      simpa using h3
    rw [ensure_noop_noneed ctx email mood force db h3'] at hllm
    simp at hllm
  rcases hu : memGetUserByEmail db email with _ | u
  · rw [ensure_nouser ctx email mood force db h2' h3 hu] at hllm
    simp at hllm
  rcases hr : ctx.reply with m | ts | _
  · rw [ensure_failure_eq ctx email mood force db u m h2' h3 hu hr] at ho
    exact markReplanned_actives_stamped email ctx.todayStr db hnd o ho hmail hact
  · rw [hr] at hreply
    by_cases hts : ts.isEmpty
    · have hnil : ts = [] := by simpa using hts
      exact absurd hnil hreply
    · have hts' : ts.isEmpty = false := by simpa using hts
      rw [ensure_success_eq ctx email mood force db u ts h2' h3 hu hr hts'] at ho
      refine markReplanned_actives_stamped2 email ctx.todayStr db _ ?_ hnd o ho hmail hact
      rw [memSaveTasks_fst_onboarding, deleteFoldE_onboarding]
  · rw [hr] at hreply
    exact hreply.elim

/-- C3 (amended): with force off, the engine is a no-op issuing no LLM
call whenever every active plan already carries today's
`lastReplanned` stamp; a replan pass whose LLM call throws, or
succeeds with a nonempty task array, stamps `lastReplanned := today`
on every active plan; consequently a second same-day call with force
off leaves the store unchanged, issues no LLM call and reports
`redistributed: false`.  When the response parses to an empty array or
a non-array value no stamp is written — the correction to the original
claim. -/
theorem replanOncePerDaySpec :
    (∀ (ctx : EngineCtx) (email mood : String) (db : DB),
      (∀ e ∈ activeEntriesOf db email ctx.todayStr, e.lastReplanned = ctx.todayStr) →
      ensureOptimalPlan ctx email mood false db = ⟨db, false, none, none, false⟩) ∧
    (∀ (ctx : EngineCtx) (email mood : String) (force : Bool) (db : DB),
      (db.onboarding.map onbKey).Nodup →
      (match ctx.reply with
       | PlanLLMReply.notArray => False
       | PlanLLMReply.tasks ts => ts ≠ []
       | PlanLLMReply.failure _ => True) →
      (ensureOptimalPlan ctx email mood force db).llmCalled = true →
      ∀ o ∈ (ensureOptimalPlan ctx email mood force db).db.onboarding,
        o.userEmail = email → isActivePlan ctx.todayStr o.onboardingData = true →
        o.lastReplanned = ctx.todayStr) ∧
    (∀ (ctx ctx2 : EngineCtx) (email mood mood2 : String) (force : Bool) (db : DB),
      (db.onboarding.map onbKey).Nodup →
      (match ctx.reply with
       | PlanLLMReply.notArray => False
       | PlanLLMReply.tasks ts => ts ≠ []
       | PlanLLMReply.failure _ => True) →
      ctx2.todayStr = ctx.todayStr →
      (ensureOptimalPlan ctx2 email mood2 false
          ((ensureOptimalPlan ctx email mood force db).db)).db
        = (ensureOptimalPlan ctx email mood force db).db ∧
      (ensureOptimalPlan ctx2 email mood2 false
          ((ensureOptimalPlan ctx email mood force db).db)).redistributed = false ∧
      (ensureOptimalPlan ctx2 email mood2 false
          ((ensureOptimalPlan ctx email mood force db).db)).llmCalled = false) := by
  refine ⟨ensure_noop_when_stamped, ensure_marks_stamped, ?_⟩
  intro ctx ctx2 email mood mood2 force db hnd hreply hc2
  by_cases hllm : (ensureOptimalPlan ctx email mood force db).llmCalled = true
  · -- the first pass stamped every active plan, so the second is gated off
    have hall : ∀ e ∈ activeEntriesOf (ensureOptimalPlan ctx email mood force db).db
        email ctx2.todayStr, e.lastReplanned = ctx2.todayStr := by
      intro e he
      rw [hc2] at he ⊢
      obtain ⟨hin, hmail, hact⟩ :=
        (mem_activeEntriesOf _ email ctx.todayStr e).mp he
      exact ensure_marks_stamped ctx email mood force db hnd hreply hllm e hin hmail hact
    rw [ensure_noop_when_stamped ctx2 email mood2 _ hall]
    exact ⟨rfl, rfl, rfl⟩
  · -- the first pass was gated off or found no user; it left the store as is
    have hllm' : (ensureOptimalPlan ctx email mood force db).llmCalled = false := by
      simpa using hllm
    by_cases h2 : ((memGetOnboarding db email).filter
        (fun e => isActivePlan ctx.todayStr e.onboardingData)).isEmpty
    · have he1 := ensure_noop_actives ctx email mood force db h2
      rw [he1]
      rw [ensure_noop_actives ctx2 email mood2 false db (by rw [hc2]; exact h2)]
      exact ⟨rfl, rfl, rfl⟩
    have h2' : ((memGetOnboarding db email).filter
        (fun e => isActivePlan ctx.todayStr e.onboardingData)).isEmpty = false := by
      simpa using h2
    by_cases h3 : (((memGetOnboarding db email).filter
        (fun e => isActivePlan ctx.todayStr e.onboardingData)).any
          (fun e => e.lastReplanned != ctx.todayStr) || force) = true
    case neg =>
      have h3' : (((memGetOnboarding db email).filter
          (fun e => isActivePlan ctx.todayStr e.onboardingData)).any
            (fun e => e.lastReplanned != ctx.todayStr) || force) = false := by
        simpa using h3
      have hany : ((memGetOnboarding db email).filter
          (fun e => isActivePlan ctx.todayStr e.onboardingData)).any
            (fun e => e.lastReplanned != ctx.todayStr) = false :=
        (Bool.or_eq_false_iff.mp h3').1
      rw [ensure_noop_noneed ctx email mood force db h3']
      rw [ensure_noop_noneed ctx2 email mood2 false db
        (by rw [hc2, Bool.or_false]; exact hany)]
      exact ⟨rfl, rfl, rfl⟩
    rcases hu : memGetUserByEmail db email with _ | u
    · rw [ensure_nouser ctx email mood force db h2' h3 hu]
      by_cases hany : ((memGetOnboarding db email).filter
          (fun e => isActivePlan ctx.todayStr e.onboardingData)).any
            (fun e => e.lastReplanned != ctx.todayStr) = true
      · rw [ensure_nouser ctx2 email mood2 false db (by rw [hc2]; exact h2')
          (by rw [hc2, Bool.or_false]; exact hany) hu]
        exact ⟨rfl, rfl, rfl⟩
      · have hany' : ((memGetOnboarding db email).filter
            (fun e => isActivePlan ctx.todayStr e.onboardingData)).any
              (fun e => e.lastReplanned != ctx.todayStr) = false := by
          simpa using hany
        rw [ensure_noop_noneed ctx2 email mood2 false db
          (by rw [hc2, Bool.or_false]; exact hany')]
        exact ⟨rfl, rfl, rfl⟩
    · -- a found user with the gates open always issues the LLM call
      exfalso
      rcases hr : ctx.reply with m | ts | _
      · rw [ensure_failure_eq ctx email mood force db u m h2' h3 hu hr] at hllm'
        simp at hllm'
      · by_cases hts : ts.isEmpty
        · rw [ensure_emptyreply ctx email mood force db u ts h2' h3 hu hr hts] at hllm'
          simp at hllm'
        · have hts' : ts.isEmpty = false := by simpa using hts
          rw [ensure_success_eq ctx email mood force db u ts h2' h3 hu hr hts'] at hllm'
          simp at hllm'
      · rw [ensure_notarray ctx email mood force db u h2' h3 hu hr] at hllm'
        simp at hllm'

/-- Counterexample to C3 as stated: a successful LLM call whose
response parses to an empty array leaves `lastReplanned` unset, and a
second same-day unforced call issues another LLM call. -/
theorem replanOncePerDay_counterexample :
    (ensureOptimalPlan { todayStr := "2026-01-05", reply := .tasks [] } "u@x" "okay" false
        { users := [{ email := "u@x" }],
          onboarding := [{ id := "o1", userEmail := "u@x", mode := "skill",
                           onboardingData := { mode := "skill", skill := "math" } }] }).llmCalled
        = true ∧
    (ensureOptimalPlan { todayStr := "2026-01-05", reply := .tasks [] } "u@x" "okay" false
        { users := [{ email := "u@x" }],
          onboarding := [{ id := "o1", userEmail := "u@x", mode := "skill",
                           onboardingData := { mode := "skill", skill := "math" } }] }).db
        = { users := [{ email := "u@x" }],
            onboarding := [{ id := "o1", userEmail := "u@x", mode := "skill",
                             onboardingData := { mode := "skill", skill := "math" } }] } ∧
    ((ensureOptimalPlan { todayStr := "2026-01-05", reply := .tasks [] } "u@x" "okay" false
        { users := [{ email := "u@x" }],
          onboarding := [{ id := "o1", userEmail := "u@x", mode := "skill",
                           onboardingData := { mode := "skill", skill := "math" } }] }).db.onboarding.map
        (fun o => o.lastReplanned)) = [""] ∧
    (ensureOptimalPlan { todayStr := "2026-01-05", reply := .tasks [] } "u@x" "okay" false
        ((ensureOptimalPlan { todayStr := "2026-01-05", reply := .tasks [] } "u@x" "okay" false
          { users := [{ email := "u@x" }],
            onboarding := [{ id := "o1", userEmail := "u@x", mode := "skill",
                             onboardingData := { mode := "skill", skill := "math" } }] }).db)).llmCalled
        = true := by
  decide

/-- Closed instance of the amended C3 theorem: with the single active
plan already stamped today, an unforced call is a complete no-op. -/
theorem replanOncePerDaySpec_witness :
    ensureOptimalPlan { todayStr := "2026-01-05", reply := .failure "boom" } "u@x" "okay" false
        { users := [{ email := "u@x" }],
          onboarding := [{ id := "o1", userEmail := "u@x", mode := "skill",
                           onboardingData := { mode := "skill", skill := "math" },
                           lastReplanned := "2026-01-05" }] }
      = ⟨{ users := [{ email := "u@x" }],
           onboarding := [{ id := "o1", userEmail := "u@x", mode := "skill",
                            onboardingData := { mode := "skill", skill := "math" },
                            lastReplanned := "2026-01-05" }] },
         false, none, none, false⟩ :=
  replanOncePerDaySpec.1 { todayStr := "2026-01-05", reply := .failure "boom" }
    "u@x" "okay"
    { users := [{ email := "u@x" }],
      onboarding := [{ id := "o1", userEmail := "u@x", mode := "skill",
                       onboardingData := { mode := "skill", skill := "math" },
                       lastReplanned := "2026-01-05" }] }
    (by decide)

end StudyPlanner

namespace StudyPlanner

/-! ## C2: regeneration context -/

/-- Counterexample to C2 as stated: the regeneration context is not a
function of mood, quiz performance and missed deadlines alone — two
states with the same mood (both literals below use the same mood and
the same, empty quiz history) and the same missed-deadline signal
(none in either) still produce different per-plan contexts, because
the context also carries the upcoming pending tasks. -/
theorem replanContext_counterexample :
    missedOf "2026-01-05"
        (([] : List StudyTask).filter (taskMatchesSubject "math"))
      = missedOf "2026-01-05"
        ([{ subject := "math", subtopic := "Loops", status := "pending",
            date := "2026-01-09" }].filter (taskMatchesSubject "math")) ∧
    buildPlanContext "2026-01-05" [] [] (fun _ => "")
        { id := "o1", userEmail := "u@x", mode := "skill",
          onboardingData := { mode := "skill", skill := "math" } }
      ≠ buildPlanContext "2026-01-05"
          [{ subject := "math", subtopic := "Loops", status := "pending",
             date := "2026-01-09" }] [] (fun _ => "")
          { id := "o1", userEmail := "u@x", mode := "skill",
            onboardingData := { mode := "skill", skill := "math" } } := by
  decide

theorem all_map_planSubject (email : String) (t : StudyTask) :
    ∀ es : List OnbEntry,
      (es.all fun e => keepOnDelete email (planSubject e.onboardingData) t)
        = ((es.map fun e => planSubject e.onboardingData).all
            fun s => keepOnDelete email s t) := by
  intro es
  induction es with
  | nil => rfl
  | cons e es ih => simp [List.all_cons, ih]

/-- C2 (amended): the per-plan regeneration context carries the missed
deadlines (pending tasks dated strictly before today) and also the
upcoming pending tasks, the quiz performance of the plan's subject
(average of score ratios over the five most recent matching quiz
results, with their deduplicated weak subtopics), and the prompt
context additionally carries the user's mood, streak and daily
capacity; on a successful LLM response with a nonempty array the
engine replaces the pending tasks of each plan's subject with the
returned tasks. -/
theorem replanContextSpec :
    (∀ (todayStr : String) (allTasks : List StudyTask) (quizzes : List QuizRec)
        (fmt : ℚ → String) (e : OnbEntry),
      (buildPlanContext todayStr allTasks quizzes fmt e).unfinishedTopics
        = (missedOf todayStr
              (allTasks.filter (taskMatchesSubject (planSubject e.onboardingData)))
            ++ upcomingOf todayStr
              (allTasks.filter (taskMatchesSubject (planSubject e.onboardingData)))).map
            (fun t => t.subtopic) ∧
      (buildPlanContext todayStr allTasks quizzes fmt e).totalPendingTasks
        = (buildPlanContext todayStr allTasks quizzes fmt e).unfinishedTopics.length ∧
      (buildPlanContext todayStr allTasks quizzes fmt e).recentWeakTopics
        = firstDedup
            (((quizzes.filter (quizMatchesSubject (planSubject e.onboardingData))).take 5).flatMap
              (fun q => q.weakSubtopics)) ∧
      ((quizzes.filter (quizMatchesSubject (planSubject e.onboardingData))).take 5 = [] →
        (buildPlanContext todayStr allTasks quizzes fmt e).avgScore = none) ∧
      ((quizzes.filter (quizMatchesSubject (planSubject e.onboardingData))).take 5 ≠ [] →
        (buildPlanContext todayStr allTasks quizzes fmt e).avgScore
          = some
              (((quizzes.filter (quizMatchesSubject (planSubject e.onboardingData))).take 5).foldl
                  (fun acc q => acc + (q.score : ℚ) / q.total) 0
                / ((quizzes.filter (quizMatchesSubject (planSubject e.onboardingData))).take 5).length
                * 100))) ∧
    (∀ (todayStr mood : String) (user : UserRec) (allTasks : List StudyTask)
        (quizzes : List QuizRec) (fmt : ℚ → String) (entries : List OnbEntry),
      (buildPromptContext todayStr user mood allTasks quizzes fmt entries).mood = mood ∧
      (buildPromptContext todayStr user mood allTasks quizzes fmt entries).currentStreak
        = user.currentStreak ∧
      (buildPromptContext todayStr user mood allTasks quizzes fmt entries).dailyHours
        = (if user.dailyHours == 0 then 4 else user.dailyHours) ∧
      (buildPromptContext todayStr user mood allTasks quizzes fmt entries).plans
        = entries.map (buildPlanContext todayStr allTasks quizzes fmt)) ∧
    (∀ (ctx : EngineCtx) (email mood : String) (force : Bool) (db : DB)
        (u : UserRec) (ts : List StudyTask),
      ((memGetOnboarding db email).filter
        (fun e => isActivePlan ctx.todayStr e.onboardingData)).isEmpty = false →
      (((memGetOnboarding db email).filter
        (fun e => isActivePlan ctx.todayStr e.onboardingData)).any
          (fun e => e.lastReplanned != ctx.todayStr) || force) = true →
      memGetUserByEmail db email = some u →
      ctx.reply = .tasks ts → ts.isEmpty = false →
      (ensureOptimalPlan ctx email mood force db).db.tasks
        = replaceTasks db email
            ((memGetOnboarding db email).map (fun e => planSubject e.onboardingData))
            ctx.now ctx.genTaskId ts) := by
  refine ⟨?_, ?_, ?_⟩
  · intro todayStr allTasks quizzes fmt e
    refine ⟨rfl, rfl, rfl, ?_, ?_⟩
    · intro h
      simp [buildPlanContext, h]
    · intro h
      have hlen : 0 < ((quizzes.filter
          (quizMatchesSubject (planSubject e.onboardingData))).take 5).length :=
        List.length_pos.mpr h
      unfold buildPlanContext
      simp only [hlen, if_pos]
  · intro todayStr mood user allTasks quizzes fmt entries
    exact ⟨rfl, rfl, rfl, rfl⟩
  · intro ctx email mood force db u ts h2 h3 hu hr hts
    rw [ensure_success_eq ctx email mood force db u ts h2 h3 hu hr hts]
    rw [markReplanned_tasks, memSaveTasks_fst_tasks, deleteFoldE_tasks]
    unfold replaceTasks
    congr 1
    apply List.filter_congr
    intro t _
    exact all_map_planSubject email t (memGetOnboarding db email)

/-- Closed instance of the amended C2 theorem: for one skill plan with
one missed and one upcoming pending task, the context lists exactly
the two unfinished subtopics. -/
theorem replanContextSpec_witness :
    (buildPlanContext "2026-01-05"
        [{ subject := "math", subtopic := "Missed", status := "pending",
           date := "2026-01-02" },
         { subject := "math", subtopic := "Soon", status := "pending",
           date := "2026-01-09" }] [] (fun _ => "")
        { id := "o1", userEmail := "u@x", mode := "skill",
          onboardingData := { mode := "skill", skill := "math" } }).unfinishedTopics
      = (missedOf "2026-01-05"
            ([{ subject := "math", subtopic := "Missed", status := "pending",
                date := "2026-01-02" },
              { subject := "math", subtopic := "Soon", status := "pending",
                date := "2026-01-09" }].filter (taskMatchesSubject (planSubject
                  { mode := "skill", skill := "math" })))
          ++ upcomingOf "2026-01-05"
            ([{ subject := "math", subtopic := "Missed", status := "pending",
                date := "2026-01-02" },
              { subject := "math", subtopic := "Soon", status := "pending",
                date := "2026-01-09" }].filter (taskMatchesSubject (planSubject
                  { mode := "skill", skill := "math" })))).map (fun t => t.subtopic) :=
  (replanContextSpec.1 "2026-01-05"
    [{ subject := "math", subtopic := "Missed", status := "pending",
       date := "2026-01-02" },
     { subject := "math", subtopic := "Soon", status := "pending",
       date := "2026-01-09" }] [] (fun _ => "")
    { id := "o1", userEmail := "u@x", mode := "skill",
      onboardingData := { mode := "skill", skill := "math" } }).1

end StudyPlanner

namespace StudyPlanner

/-! ## C1: persisted tasks versus parsed tasks -/

theorem memCreateOnboarding_fst_tasks (db : DB) (e : OnbEntry) :
    (memCreateOnboarding db e).1.tasks = db.tasks := rfl

theorem revCopies_sessionType (r3 r6 : StudyTask → String) (ex : Nat)
    (t : StudyTask) :
    ∀ x ∈ revCopies r3 r6 ex t, x.sessionType = "Reinforcement Revision"
      ∨ x.sessionType = "Deep Revision" := by
  intro x hx
  unfold revCopies at hx
  rcases hpd : parseDateStr t.date with _ | d
  · rw [hpd] at hx
    simp at hx
  · rw [hpd] at hx
    by_cases h3 : d + 3 < ex
    · by_cases h6 : d + 6 < ex
      · simp only [h3, h6, if_true, List.mem_append, List.mem_singleton] at hx
        rcases hx with h | h <;> subst h
        · exact .inl rfl
        · exact .inr rfl
      · simp only [h3, h6, if_true, if_false, List.append_nil,
          List.mem_singleton] at hx
        subst hx
        exact .inl rfl
    · by_cases h6 : d + 6 < ex
      · simp only [h3, h6, if_true, if_false, List.nil_append,
          List.mem_singleton] at hx
        subst hx
        exact .inr rfl
      · simp only [h3, h6, if_false, List.append_nil] at hx
        simp at hx

theorem applySpaced_eq_append (todayN : Nat) (r3 r6 : StudyTask → String)
    (ts : List StudyTask) (examDate : String) :
    ∃ extras, applySpacedRepetition todayN r3 r6 ts examDate = ts ++ extras ∧
      (∀ x ∈ extras, x.sessionType = "Reinforcement Revision"
          ∨ x.sessionType = "Deep Revision") ∧
      ((∀ ex, parseDateStr examDate = some ex → (ex : Int) - todayN < 14) →
        extras = []) := by
  unfold applySpacedRepetition
  rcases hp : parseDateStr examDate with _ | ex
  · exact ⟨[], by simp, by simp, fun _ => rfl⟩
  · by_cases hlt : (ex : Int) - todayN < 14
    · refine ⟨[], ?_, by simp, fun _ => rfl⟩
      simp [hlt]
    · refine ⟨spacedCopies r3 r6 ex ts, ?_, ?_, ?_⟩
      · simp [hlt]
      · intro x hx
        unfold spacedCopies at hx
        rcases List.mem_flatMap.mp hx with ⟨t, _, hxt⟩
        exact revCopies_sessionType r3 r6 ex t x hxt
      · intro hall
        exact absurd (hall ex rfl) hlt

/-- Counterexample to C1 as stated: for an exam a month away, the
generation endpoint persists three tasks where the LLM response parsed
to one — `applySpacedRepetition` programmatically adds revision
copies, so the persisted set is not the parsed set. -/
theorem generatePersistsParsed_counterexample :
    ((generateRoute
        { todayN := daysFromCivil 2026 1 1, now := "N",
          genTaskId := fun i => natToStr i, genOnbId := "onb",
          rev3Id := fun _ => "r3", rev6Id := fun _ => "r6",
          genReply := .tasks [{ subject := "Math", topic := "Algebra", subtopic := "Linear", duration := "1 hr", date := "2026-01-01", sessionType := "Core Learning", status := "pending" }] }
        { email := "u@x" }
        { onboardingBody := { mode := "exam", level := "Math",
                              examDate := "2026-02-01" } }
        {}).1.tasks.length = 3) ∧
    (∃ t ∈ (generateRoute
        { todayN := daysFromCivil 2026 1 1, now := "N",
          genTaskId := fun i => natToStr i, genOnbId := "onb",
          rev3Id := fun _ => "r3", rev6Id := fun _ => "r6",
          genReply := .tasks [{ subject := "Math", topic := "Algebra", subtopic := "Linear", duration := "1 hr", date := "2026-01-01", sessionType := "Core Learning", status := "pending" }] }
        { email := "u@x" }
        { onboardingBody := { mode := "exam", level := "Math",
                              examDate := "2026-02-01" } }
        {}).1.tasks, t.sessionType = "Deep Revision") ∧
    (∀ t ∈ [({ subject := "Math", topic := "Algebra", subtopic := "Linear", duration := "1 hr", date := "2026-01-01", sessionType := "Core Learning", status := "pending" } : StudyTask)],
      ¬ t.sessionType = "Deep Revision") := by
  decide

/-- C1 (amended): the tasks the generation endpoint persists are
exactly the parsed tasks plus the spaced-repetition revision copies
appended by `applySpacedRepetition` (empty whenever the exam date is
absent, unparsable, or less than 14 days away); persisting neither
re-dates nor otherwise alters a parsed task's content; and the
regeneration path persists exactly the parsed tasks with no
additions. -/
theorem generatePersistsParsedSpec :
    (∀ (c : SrvCtx) (auth : AuthTok) (req : ApiReq) (db : DB) (ts : List StudyTask),
      generatePlanFromOnboarding c.genReply = .ok ts →
      ∃ extras,
        applySpacedRepetition c.todayN c.rev3Id c.rev6Id ts req.onboardingBody.examDate
          = ts ++ extras ∧
        (generateRoute c auth req db).1.tasks
          = db.tasks ++ savedItems auth.email c.now c.genTaskId (ts ++ extras) ∧
        (∀ x ∈ extras, x.sessionType = "Reinforcement Revision"
            ∨ x.sessionType = "Deep Revision") ∧
        ((∀ ex, parseDateStr req.onboardingBody.examDate = some ex →
            (ex : Int) - c.todayN < 14) → extras = [])) ∧
    (∀ (email now : String) (genId : Nat → String) (i : Nat) (t : StudyTask),
      (saveTaskItem email now genId i t).date = t.date ∧
      (saveTaskItem email now genId i t).subject = t.subject ∧
      (saveTaskItem email now genId i t).subtopic = t.subtopic ∧
      (saveTaskItem email now genId i t).sessionType = t.sessionType ∧
      (saveTaskItem email now genId i t).duration = t.duration ∧
      (saveTaskItem email now genId i t).status = t.status) ∧
    (∀ (ctx : EngineCtx) (email mood : String) (force : Bool) (db : DB)
        (u : UserRec) (ts : List StudyTask),
      ((memGetOnboarding db email).filter
        (fun e => isActivePlan ctx.todayStr e.onboardingData)).isEmpty = false →
      (((memGetOnboarding db email).filter
        (fun e => isActivePlan ctx.todayStr e.onboardingData)).any
          (fun e => e.lastReplanned != ctx.todayStr) || force) = true →
      memGetUserByEmail db email = some u →
      ctx.reply = .tasks ts → ts.isEmpty = false →
      (ensureOptimalPlan ctx email mood force db).db.tasks
        = db.tasks.filter (fun t => (memGetOnboarding db email).all
            (fun e => keepOnDelete email (planSubject e.onboardingData) t))
          ++ savedItems email ctx.now ctx.genTaskId
              (ts.map (fun t => { t with userEmail := email }))) := by
  refine ⟨?_, ?_, ?_⟩
  · intro c auth req db ts hgen
    obtain ⟨extras, heq, hsess, hsmall⟩ :=
      applySpaced_eq_append c.todayN c.rev3Id c.rev6Id ts req.onboardingBody.examDate
    refine ⟨extras, heq, ?_, hsess, hsmall⟩
    unfold generateRoute
    rw [hgen]
    rw [memCreateOnboarding_fst_tasks, memSaveTasks_fst_tasks, heq]
  · intro email now genId i t
    exact ⟨rfl, rfl, rfl, rfl, rfl, rfl⟩
  · intro ctx email mood force db u ts h2 h3 hu hr hts
    rw [ensure_success_eq ctx email mood force db u ts h2 h3 hu hr hts]
    rw [markReplanned_tasks, memSaveTasks_fst_tasks, deleteFoldE_tasks]

/-- Closed instance of the amended C1 theorem: in skill mode (no exam
date) nothing is added, and the persisted tasks are exactly the tagged
parsed tasks. -/
theorem generatePersistsParsedSpec_witness :
    ∃ extras,
      applySpacedRepetition 0 (fun _ => "") (fun _ => "")
          [{ subject := "Math", topic := "T", subtopic := "S", duration := "1 hr", date := "2026-01-01", sessionType := "Core Learning" }] ""
        = [{ subject := "Math", topic := "T", subtopic := "S", duration := "1 hr", date := "2026-01-01", sessionType := "Core Learning" }] ++ extras ∧
      (generateRoute
          { now := "N", genTaskId := fun i => natToStr i, genOnbId := "onb",
            genReply := .tasks [{ subject := "Math", topic := "T", subtopic := "S", duration := "1 hr", date := "2026-01-01", sessionType := "Core Learning" }] }
          { email := "u@x" }
          { onboardingBody := { mode := "skill", skill := "Math" } }
          {}).1.tasks
        = ({} : DB).tasks ++ savedItems "u@x" "N" (fun i => natToStr i)
            ([{ subject := "Math", topic := "T", subtopic := "S", duration := "1 hr", date := "2026-01-01", sessionType := "Core Learning" }] ++ extras) ∧
      (∀ x ∈ extras, x.sessionType = "Reinforcement Revision"
          ∨ x.sessionType = "Deep Revision") ∧
      ((∀ ex, parseDateStr "" = some ex → (ex : Int) - 0 < 14) → extras = []) :=
  generatePersistsParsedSpec.1
    { now := "N", genTaskId := fun i => natToStr i, genOnbId := "onb",
      genReply := .tasks [{ subject := "Math", topic := "T", subtopic := "S", duration := "1 hr", date := "2026-01-01", sessionType := "Core Learning" }] }
    { email := "u@x" }
    { onboardingBody := { mode := "skill", skill := "Math" } }
    {}
    [{ subject := "Math", topic := "T", subtopic := "S", duration := "1 hr", date := "2026-01-01", sessionType := "Core Learning" }]
    rfl

end StudyPlanner
